import Mathlib

/-!
Verification development for the seismogram-synthesis engine of
instaseis (file instaseis/instaseisdb.py).

The engine is embedded shallowly: the control flow, caching, decoding and
linear-combination arithmetic of InstaSeisDB.get_seismograms and its helpers
are translated into executable Lean definitions over the rationals.  External
collaborator modules that are out of scope for the core (the kd-tree spatial
index, the inverse isoparametric mapping of finite_elem_mapping, the rotation
formulas of the rotations module, Lagrange interpolation of spectral_basis,
the strain-derivative kernels of sem_derivatives, numpy's FFT and the Lanczos
resampler) are modelled as oracle function parameters collected in the Ext
structure, and spectra are kept as symbolic expressions (FreqSig) so that the
transform lengths the code chooses stay observable.  Observable effects
(spatial-index queries, membership tests, field extraction and raw-storage
reads) are recorded in an event trace.
-/

namespace Instaseis

/-- Dump type of a database, from the k_map keys at instaseisdb.py line 254. -/
inductive DumpType
  | displ_only
  | strain_only
  | fullfields
deriving DecidableEq, Repr

/-- Excitation type of a mesh (strain_fct_map keys, line 695). -/
inductive ExcitationType
  | monopole
  | dipole
  | quadpole
deriving DecidableEq, Repr

/-- A requested seismogram component. -/
inductive Comp
  | Z
  | N
  | E
  | R
  | T
deriving DecidableEq, Repr

/-- Identity of one of the wavefield meshes: the reciprocal pair (px, pz) or
the four forward elemental moment-tensor meshes. -/
inductive MeshId
  | px
  | pz
  | m1
  | m2
  | m3
  | m4
deriving DecidableEq, Repr

/-- Kind of source object passed to get_seismograms: instaseis.source.Source
(moment tensor), instaseis.source.ForceSource, or anything else (the code
raises NotImplementedError in the final case). -/
inductive SrcKind
  | moment
  | force
  | other
deriving DecidableEq, Repr

/-- Errors raised by the engine.  valueError and runtimeError model Python's
ValueError and RuntimeError; notImplemented models NotImplementedError;
unboundLocal models Python's UnboundLocalError for a local variable that was
never assigned on the executed path; attributeError models attribute access
on None. -/
inductive Err
  | valueError (msg : String)
  | runtimeError (msg : String)
  | notImplemented
  | unboundLocal (name : String)
  | attributeError (msg : String)
deriving DecidableEq, Repr

/-- Observable events of a synthesis call: a k-nearest-neighbour query on the
spatial index, a point-in-element membership test (which reads the candidate
element's corner points from the mesh file), a soft depth-override warning,
a field extraction on a mesh, and a raw-storage (Snapshots) read on a mesh. -/
inductive Ev
  | kdQuery (k : ℕ)
  | insideTest (idx : ℕ)
  | warnDepth
  | extract (m : MeshId)
  | rawRead (m : MeshId)
deriving DecidableEq, Repr

/-- Symbolic spectrum expression: the code manipulates numpy complex spectra
only through rfft, a linear-phase multiplication, pointwise products and
quotients, and irfft.  Keeping the expression symbolic records which
zero-padded transform length each rfft call used. -/
inductive FreqSig
  | rfft (x : List ℚ) (n : ℕ)
  | phase (a : FreqSig) (time_shift dt : ℚ) (n : ℕ)
  | mul (a b : FreqSig)
  | div (a b : FreqSig)
deriving DecidableEq, Repr

/-- Transform lengths of all rfft leaves of a spectrum expression, in
left-to-right construction order. -/
def rfftLens : FreqSig → List ℕ
  | .rfft _ n => [n]
  | .phase a _ _ _ => rfftLens a
  | .mul a b => rfftLens a ++ rfftLens b
  | .div a b => rfftLens a ++ rfftLens b

/-- A [time, 6] Voigt strain tensor, one list of time samples per channel. -/
structure Strain6 where
  c0 : List ℚ
  c1 : List ℚ
  c2 : List ℚ
  c3 : List ℚ
  c4 : List ℚ
  c5 : List ℚ
deriving DecidableEq, Repr

/-- Channel accessor for a Voigt strain tensor. -/
def Strain6.channel (s : Strain6) : Fin 6 → List ℚ
  | 0 => s.c0
  | 1 => s.c1
  | 2 => s.c2
  | 3 => s.c3
  | 4 => s.c4
  | 5 => s.c5

/-- Per-mesh data and state.  Raw per-element storage is modelled as total
functions; hasStrainVar i records whether the i-th whole-element strain
variable (strain_dsus, strain_dsuz, strain_dpup, strain_dsup, strain_dzup,
straintrace, in that storage order) is present in the Snapshots group, and
displRaw is the (opaque) nodal displacement payload read for a given
GLL-point-id token.

The three buffers model the Mesh Topology Descriptor's extraction cache.
Modelled from the spec: the cache (strain_buffer / displ_buffer of the mesh
object, which lives in the out-of-scope mesh module) is a key-value store
keyed by element id offering contains, get and add, whose entries are
read-only once inserted.  It is modelled as an association list where add
prepends and get returns the most recently added binding.  The code stores
node-level strain tensors in strain_buffer on the displ_only path and decoded
[time, 6] tensors on the whole-element path; since one mesh only ever uses
one of the two, the two uses are kept in separate fields here. -/
structure MeshData where
  excitation_type : ExcitationType
  ndumps : ℕ
  hasStrainVar : Fin 6 → Bool
  strainVar : Fin 6 → ℕ → List ℚ
  displRaw : ℕ → List ℚ
  strain_buffer : List (ℕ × Strain6)
  strain_buffer_nodes : List (ℕ × List ℚ)
  displ_buffer : List (ℕ × List ℚ)

/-- The two valid mesh collections: MeshCollection_bwd (reciprocal, px and/or
pz) and MeshCollection_fwd (forward, all four elemental meshes). -/
inductive Meshes
  | bwd (px pz : Option MeshData)
  | fwd (m1 m2 m3 m4 : MeshData)

/-- Oracles for the external collaborator modules used by get_seismograms.
Arguments that are fixed for the duration of one synthesis call (the rotated
receiver coordinates, corner points, element types, collocation points and
differentiation matrices) are folded into the oracle closures. -/
structure Ext where
  /-- kdtree.query on (rotmesh_s, rotmesh_z); returns the element ids of the
  k nearest points (the code uses nextpoints[1], the id part). -/
  kdQuery : ℕ → List ℕ
  /-- finite_elem_mapping.inside_element for a candidate element id at the
  given tolerance, returning (isin, xi, eta); the candidate's corner points
  and element type are folded in. -/
  inside : ℕ → ℚ → Bool × ℚ × ℚ
  /-- sem_mesh lookup: the GLL point-id token of an element. -/
  gllIdsOf : ℕ → ℕ
  /-- axis flag of an element. -/
  axisOf : ℕ → Bool
  /-- sem_derivatives.strain_*_td dispatched on excitation type, applied to a
  nodal displacement payload (G, GT, collocation points, npol, ndumps, corner
  points, eltype and axis are folded in); returns a node-level strain
  payload. -/
  strainTd : ExcitationType → List ℚ → List ℚ
  /-- spectral_basis.lagrange_interpol_2D_td on channel i of a node-level
  strain payload at (xi, eta). -/
  lagrange6 : List ℚ → Fin 6 → ℚ → ℚ → List ℚ
  /-- spectral_basis.lagrange_interpol_2D_td on channel i of a nodal
  displacement payload at (xi, eta). -/
  lagrange3 : List ℚ → Fin 3 → ℚ → ℚ → List ℚ
  /-- rotations.rotate_frame_rd: the rotated cylindrical coordinates
  (rotmesh_s, rotmesh_phi, rotmesh_z) of the variable point. -/
  rotframe : ℚ × ℚ × ℚ
  /-- the moment tensor after the three Voigt rotations of lines 349-358 and
  division by the mesh amplitude (reciprocal mode). -/
  mijRot : Fin 6 → ℚ
  /-- source.tensor divided by the mesh amplitude (forward mode). -/
  mijFwd : Fin 6 → ℚ
  /-- the force vector after the rotations of lines 416-423 and division by
  the mesh amplitude. -/
  forceRot : Fin 3 → ℚ
  /-- numpy cos. -/
  cosQ : ℚ → ℚ
  /-- numpy sin. -/
  sinQ : ℚ → ℚ
  /-- numpy arctan2. -/
  arctan2Q : ℚ → ℚ → ℚ
  /-- rotations.rotate_vector_src_to_NEZ applied columnwise to the three
  component series (angles folded in). -/
  rotNEZ : List ℚ × List ℚ × List ℚ → List ℚ × List ℚ × List ℚ
  /-- numpy irfft of a symbolic spectrum. -/
  irfft : FreqSig → List ℚ
  /-- lanczos.lanczos_resamp (samples, dt_in, dt_out, kernel width). -/
  lanczosResamp : List ℚ → ℚ → ℚ → ℕ → List ℚ
  /-- mesh_mu at the centre GLL point of a GLL point-id token
  (mesh_mu[gll_point_ids[npol/2, npol/2]] folded into the token). -/
  meshMu : ℕ → ℚ

/-- Source object: kind, attached source time function (dt, sliprate), time
shift, and the depth field that only triggers a warning. -/
structure Src where
  kind : SrcKind
  dt : Option ℚ
  sliprate : Option (List ℚ)
  time_shift : Option ℚ
  depth_in_m : Option ℚ

/-- Receiver object: only the depth field is consulted by the core (the
geometry is folded into Ext.rotframe). -/
structure Receiver where
  depth_in_m : Option ℚ

/-- Doubling loop for nextpow2: double acc until it reaches n.  The fuel
argument only bounds the recursion; fuel = n is always sufficient. -/
def np2aux : ℕ → ℕ → ℕ → ℕ
  | 0, _, acc => acc
  | fuel + 1, n, acc => if n ≤ acc then acc else np2aux fuel n (acc * 2)

/-- The obspy nextpow2: the smallest power of two that is at least n
(two to the ceiling of the base-2 logarithm, for positive n). -/
def nextpow2 (n : ℕ) : ℕ := np2aux n n 1

/-- The common transform length as the specification sentence literally
reads: the next power of two above twice the dump count, doubled again. -/
def specTransformLength (ndumps : ℕ) : ℕ := nextpow2 (2 * ndumps) * 2

/-- The opened database: mesh collection, dump type and the scalar metadata
of the parsed mesh that the synthesis entry points consult. -/
structure DB where
  meshes : Meshes
  dump_type : DumpType
  ndumps : ℕ
  dtq : ℚ
  sliprate : List ℚ
  source_shift_samp : ℕ

/-- self.reciprocal: set by _parse_fs_meshes / _parse_mt_meshes. -/
def DB.reciprocal (db : DB) : Bool :=
  match db.meshes with
  | .bwd _ _ => true
  | .fwd _ _ _ _ => false

/-- self.nfft = nextpow2(self.ndumps) * 2 (line 125). -/
def DB.nfft (db : DB) : ℕ := nextpow2 db.ndumps * 2

/-- Keyword arguments of get_seismograms. -/
structure Args where
  components : List Comp
  remove_source_shift : Bool
  reconvolve_stf : Bool
  return_obspy_stream : Bool
  dtOut : Option ℚ
  a_lanczos : ℕ

/-- DEFAULT_MU = 32e9 (line 37). -/
def DEFAULT_MU : ℚ := 32000000000

/-- Pointwise list operations used to transcribe the numpy array arithmetic
(all arrays combined by the code share the time-axis length). -/
def scl (c : ℚ) (xs : List ℚ) : List ℚ := xs.map (fun x => c * x)

/-- Pointwise addition. -/
def addl (xs ys : List ℚ) : List ℚ := List.zipWith (fun a b => a + b) xs ys

/-- Pointwise subtraction. -/
def subl (xs ys : List ℚ) : List ℚ := List.zipWith (fun a b => a - b) xs ys

/-- Pointwise negation. -/
def negl (xs : List ℚ) : List ℚ := xs.map (fun x => -x)

/-- A zero time series of the given length. -/
def zerosl (n : ℕ) : List ℚ := List.replicate n 0

/-- Channel i of the strain_temp array built by __get_strain (lines 722-731):
the stored whole-element strain variable if present in the Snapshots group,
otherwise the zeros the array was initialised with. -/
def strainTempChannel (ndumps : ℕ) (m : MeshData) (id_elem : ℕ) (i : Fin 6) :
    List ℚ :=
  if m.hasStrainVar i then m.strainVar i id_elem else zerosl ndumps

/-- Sample t of strain_temp channel i (0 outside the stored range). -/
def chVal (ndumps : ℕ) (m : MeshData) (id_elem : ℕ) (i : Fin 6) (t : ℕ) : ℚ :=
  (strainTempChannel ndumps m id_elem i).getD t 0

/-- The Voigt decode of __get_strain (lines 733-742): final_strain from
strain_temp.  Channel 2 is straintrace minus strain_dsus minus strain_dpup;
channels 3 and 5 are sign-flipped copies of strain_dzup and strain_dsup. -/
def decodeStrain (ndumps : ℕ) (m : MeshData) (id_elem : ℕ) : Strain6 :=
  let t := strainTempChannel ndumps m id_elem
  { c0 := t 0
    c1 := t 2
    c2 := subl (subl (t 5) (t 0)) (t 2)
    c3 := negl (t 4)
    c4 := t 1
    c5 := negl (t 3) }

/-- __get_strain (lines 720-747): buffered whole-element strain extraction.
Returns the tensor, the updated mesh state, and the number of raw Snapshots
channel reads performed (0 on a cache hit). -/
def getStrain (ndumps : ℕ) (m : MeshData) (id_elem : ℕ) :
    Strain6 × MeshData × ℕ :=
  match m.strain_buffer.lookup id_elem with
  | some s => (s, m, 0)
  | none =>
    let s := decodeStrain ndumps m id_elem
    (s, { m with strain_buffer := (id_elem, s) :: m.strain_buffer },
      (List.finRange 6).countP (fun i => m.hasStrainVar i))

/-- __get_displacement (lines 749-776): buffered nodal displacement load
followed by 2-D Lagrange interpolation of the three channels at (xi, eta).
Returns the [time, 3] result, the updated mesh state, and the number of raw
Snapshots reads (0 on a cache hit). -/
def getDisplacement (o : Ext) (m : MeshData) (id_elem gll : ℕ) (xi eta : ℚ) :
    (List ℚ × List ℚ × List ℚ) × MeshData × ℕ :=
  let load :=
    match m.displ_buffer.lookup id_elem with
    | some u => (u, m, 0)
    | none =>
      let u := m.displRaw gll
      (u, { m with displ_buffer := (id_elem, u) :: m.displ_buffer }, 1)
  let utemp := load.1
  ((o.lagrange3 utemp 0 xi eta, o.lagrange3 utemp 1 xi eta,
    o.lagrange3 utemp 2 xi eta), load.2)

/-- The node-level strain payload that __get_strain_interp interpolates: the
buffered payload on a cache hit, otherwise the strain_fct_map kernel for the
mesh's excitation type applied to the freshly loaded nodal displacement. -/
def strainNodesOf (o : Ext) (m : MeshData) (id_elem gll : ℕ) : List ℚ :=
  match m.strain_buffer_nodes.lookup id_elem with
  | some s => s
  | none => o.strainTd m.excitation_type (m.displRaw gll)

/-- __get_strain_interp (lines 674-718): buffered node-level strain, then
per-channel 2-D Lagrange interpolation at (xi, eta), then the sign flip of
channels 3 and 5 applied when the excitation type is not monopole.  Returns
the [time, 6] result, the updated mesh state and the raw-read count. -/
def getStrainInterp (o : Ext) (m : MeshData) (id_elem gll : ℕ) (xi eta : ℚ) :
    Strain6 × MeshData × ℕ :=
  let load :=
    match m.strain_buffer_nodes.lookup id_elem with
    | some s => (s, m, 0)
    | none =>
      let s := o.strainTd m.excitation_type (m.displRaw gll)
      (s, { m with strain_buffer_nodes := (id_elem, s) :: m.strain_buffer_nodes },
        1)
  let nodes := load.1
  let f := fun i => o.lagrange6 nodes i xi eta
  let base : Strain6 := ⟨f 0, f 1, f 2, f 3, f 4, f 5⟩
  let final :=
    if m.excitation_type = ExcitationType.monopole then base
    else { base with c3 := negl base.c3, c5 := negl base.c5 }
  (final, load.2)

/-- k_map (lines 254-256): spatial-index query size per dump type. -/
def kMap : DumpType → ℕ
  | .displ_only => 6
  | .strain_only => 1
  | .fullfields => 1

/-- The per-element data bound only on the displ_only point-location path
(lines 282-303): the accepted local coordinates, the GLL point-id token of
the containing element and its axis flag. -/
structure DisplLoc where
  xi : ℚ
  eta : ℚ
  gll : ℕ
  axis : Bool
deriving DecidableEq, Repr

/-- The candidate loop of lines 264-289: walk the k nearest candidates in
order, test each with finite_elem_mapping.inside_element at tolerance 1e-3,
accept the first that passes; fall through to ValueError "Element not found"
when every candidate fails.  Also returns the membership tests performed. -/
def findElement (o : Ext) : List ℕ → (Except Err (ℕ × ℚ × ℚ)) × List Ev
  | [] => (.error (.valueError "Element not found"), [])
  | idx :: rest =>
    let r := o.inside idx (1 / 1000)
    if r.1 then (.ok (idx, r.2.1, r.2.2), [Ev.insideTest idx])
    else
      let rec' := findElement o rest
      (rec'.1, Ev.insideTest idx :: rec'.2)

/-- The point-location phase of get_seismograms (lines 254-305): query the
spatial index for k = k_map[dump_type] candidates; for displ_only run the
membership loop and bind the GLL ids and axis flag of the accepted element;
for every other dump type take the single nearest element id with no
membership test (and leave the displ_only-only locals unbound). -/
def locatePhase (db : DB) (o : Ext) :
    (Except Err (ℕ × Option DisplLoc)) × List Ev :=
  let k := kMap db.dump_type
  let nextpoints := o.kdQuery k
  if db.dump_type = DumpType.displ_only then
    match findElement o nextpoints with
    | (.error e, evs) => (.error e, Ev.kdQuery k :: evs)
    | (.ok (id_elem, xi, eta), evs) =>
      (.ok (id_elem, some ⟨xi, eta, o.gllIdsOf id_elem, o.axisOf id_elem⟩),
        Ev.kdQuery k :: evs)
  else
    (.ok (nextpoints.headD 0, none), [Ev.kdQuery k])

/-- any(comp in components for comp in ['N', 'E', 'R', 'T']) (lines 226,
339, 410). -/
def needHoriz (comps : List Comp) : Bool :=
  [Comp.N, Comp.E, Comp.R, Comp.T].any (fun c => comps.contains c)

/-- The events of one field extraction on mesh mid: an extraction event,
plus a raw-storage read event when the extraction performed raw reads. -/
def evPair (mid : MeshId) (reads : ℕ) : List Ev :=
  Ev.extract mid :: if reads > 0 then [Ev.rawRead mid] else []

/-- Strain extraction for one reciprocal mesh inside get_seismograms (lines
329-347): __get_strain_interp for displ_only, __get_strain otherwise.  The
mesh argument is the optional px or pz mesh; extraction on an absent mesh
models Python's attribute access on None and point-local data that was never
bound models an unbound local, both unreachable behind the guards the code
establishes first.  Returns the tensor and the events (one extraction event,
plus a raw-read event when the extraction missed the cache). -/
def extractStrain (db : DB) (o : Ext) (mo : Option MeshData) (mid : MeshId)
    (id_elem : ℕ) (dl : Option DisplLoc) :
    (Except Err Strain6) × List Ev :=
  match mo with
  | none => (.error (.attributeError "NoneType mesh"), [])
  | some m =>
    if db.dump_type = DumpType.displ_only then
      match dl with
      | none => (.error (.unboundLocal "gll_point_ids"), [])
      | some d =>
        let r := getStrainInterp o m id_elem d.gll d.xi d.eta
        (.ok r.1, evPair mid r.2.2)
    else
      let r := getStrain db.ndumps m id_elem
      (.ok r.1, evPair mid r.2.2)

/-- Displacement extraction for one reciprocal mesh (lines 404-414), used by
the force-source path; only legal after the displ_only check of line 401. -/
def extractDispl (o : Ext) (mo : Option MeshData) (mid : MeshId)
    (id_elem : ℕ) (dl : Option DisplLoc) :
    (Except Err (List ℚ × List ℚ × List ℚ)) × List Ev :=
  match mo with
  | none => (.error (.attributeError "NoneType mesh"), [])
  | some m =>
    match dl with
    | none => (.error (.unboundLocal "gll_point_ids"), [])
    | some d =>
      let r := getDisplacement o m id_elem d.gll d.xi d.eta
      (.ok r.1, evPair mid r.2.2)

/-- The reciprocal moment-tensor combination (lines 316-398).  strain_z is
read only when Z is requested and strain_x only when one of N, E, R, T is;
each output component is the fixed linear combination of strain channels and
rotated moment-tensor entries transcribed from the source, with the
azimuthal factors cos/sin(rotmesh_phi) for E and N and the overall sign flip
for N.  Produces the data dictionary in insertion order Z, R, T, E, N. -/
def combineRecipMoment (db : DB) (o : Ext) (px pz : Option MeshData)
    (id_elem : ℕ) (dl : Option DisplLoc) (comps : List Comp) :
    (Except Err (List (Comp × List ℚ))) × List Ev :=
  let rz :=
    if comps.contains Comp.Z then
      let r := extractStrain db o pz MeshId.pz id_elem dl
      ((r.1.map some : Except Err (Option Strain6)), r.2)
    else ((.ok none : Except Err (Option Strain6)), ([] : List Ev))
  match rz with
  | (.error e, evz) => (.error e, evz)
  | (.ok strain_z, evz) =>
    let rx :=
      if needHoriz comps then
        let r := extractStrain db o px MeshId.px id_elem dl
        ((r.1.map some : Except Err (Option Strain6)), r.2)
      else ((.ok none : Except Err (Option Strain6)), ([] : List Ev))
    match rx with
    | (.error e, evx) => (.error e, evz ++ evx)
    | (.ok strain_x, evx) =>
      let mij := o.mijRot
      let phi := o.rotframe.2.1
      let dZ :=
        match strain_z with
        | some sz =>
          if comps.contains Comp.Z then
            let n := sz.c0.length
            let final :=
              addl (addl (addl (addl (zerosl n)
                (scl (mij 0) sz.c0)) (scl (mij 1) sz.c1)) (scl (mij 2) sz.c2))
                (scl (2 * mij 4) sz.c4)
            [(Comp.Z, final)]
          else []
        | none => []
      let dX :=
        match strain_x with
        | some sx =>
          let n := sx.c0.length
          let dR :=
            if comps.contains Comp.R then
              let final :=
                subl (subl (subl (subl (zerosl n)
                  (scl (mij 0 * 1) sx.c0)) (scl (mij 1 * 1) sx.c1))
                  (scl (mij 2 * 1) sx.c2)) (scl (mij 4 * 2) sx.c4)
              [(Comp.R, final)]
            else []
          let dT :=
            if comps.contains Comp.T then
              let final :=
                addl (addl (zerosl n) (scl (mij 3 * 2) sx.c3))
                  (scl (mij 5 * 2) sx.c5)
              [(Comp.T, final)]
            else []
          let mkEN := fun (fac_1 fac_2 : ℚ) =>
            addl (addl (addl (addl (addl (addl (zerosl n)
              (scl (mij 0 * 1 * fac_1) sx.c0)) (scl (mij 1 * 1 * fac_1) sx.c1))
              (scl (mij 2 * 1 * fac_1) sx.c2)) (scl (mij 3 * 2 * fac_2) sx.c3))
              (scl (mij 4 * 2 * fac_1) sx.c4)) (scl (mij 5 * 2 * fac_2) sx.c5)
          let dE :=
            if comps.contains Comp.E then
              [(Comp.E, mkEN (o.sinQ phi) (o.cosQ phi))]
            else []
          let dN :=
            if comps.contains Comp.N then
              [(Comp.N, negl (mkEN (o.cosQ phi) (-o.sinQ phi)))]
            else []
          dR ++ dT ++ dE ++ dN
        | none => []
      (.ok (dZ ++ dX), evz ++ evx)

/-- The reciprocal force-source combination (lines 400-456): rejected unless
the dump type is displ_only; displacement is read per polarization under the
same component guards, then combined with the rotated force vector. -/
def combineRecipForce (db : DB) (o : Ext) (px pz : Option MeshData)
    (id_elem : ℕ) (dl : Option DisplLoc) (comps : List Comp) :
    (Except Err (List (Comp × List ℚ))) × List Ev :=
  if db.dump_type ≠ DumpType.displ_only then
    (.error (.valueError "Force sources only in displ_only mode"), [])
  else
    let rz :=
      if comps.contains Comp.Z then
        let r := extractDispl o pz MeshId.pz id_elem dl
        ((r.1.map some : Except Err (Option (List ℚ × List ℚ × List ℚ))), r.2)
      else ((.ok none), ([] : List Ev))
    match rz with
    | (.error e, evz) => (.error e, evz)
    | (.ok displ_z, evz) =>
      let rx :=
        if needHoriz comps then
          let r := extractDispl o px MeshId.px id_elem dl
          ((r.1.map some : Except Err (Option (List ℚ × List ℚ × List ℚ))),
            r.2)
        else ((.ok none), ([] : List Ev))
      match rx with
      | (.error e, evx) => (.error e, evz ++ evx)
      | (.ok displ_x, evx) =>
        let force := o.forceRot
        let phi := o.rotframe.2.1
        let dZ :=
          match displ_z with
          | some dz =>
            if comps.contains Comp.Z then
              let n := dz.1.length
              [(Comp.Z, addl (addl (zerosl n) (scl (force 0) dz.1))
                (scl (force 2) dz.2.2))]
            else []
          | none => []
        let dX :=
          match displ_x with
          | some dx =>
            let n := dx.1.length
            let dR :=
              if comps.contains Comp.R then
                [(Comp.R, addl (addl (zerosl n) (scl (force 0) dx.1))
                  (scl (force 2) dx.2.2))]
              else []
            let dT :=
              if comps.contains Comp.T then
                [(Comp.T, addl (zerosl n) (scl (force 1) dx.2.1))]
              else []
            let mkEN := fun (fac_1 fac_2 : ℚ) =>
              addl (addl (addl (zerosl n) (scl (force 0 * fac_1) dx.1))
                (scl (force 1 * fac_2) dx.2.1)) (scl (force 2 * fac_1) dx.2.2)
            let dE :=
              if comps.contains Comp.E then
                [(Comp.E, mkEN (o.sinQ phi) (o.cosQ phi))]
              else []
            let dN :=
              if comps.contains Comp.N then
                [(Comp.N, negl (mkEN (o.cosQ phi) (-o.sinQ phi)))]
              else []
            dR ++ dT ++ dE ++ dN
          | none => []
        (.ok (dZ ++ dX), evz ++ evx)

/-- The forward-mode combination (lines 461-533): moment-tensor sources and
displ_only dumps only; the four elemental-mesh displacements are read
unconditionally, combined into (s, phi, z) columns with azimuthal-order
weights, and projected onto the requested components (T and R directly, N,
E, Z through the full NEZ rotation).  Data insertion order is T, R, N, E,
Z. -/
def combineForward (db : DB) (o : Ext) (mm1 mm2 mm3 mm4 : MeshData)
    (id_elem : ℕ) (dl : Option DisplLoc) (srcKind : SrcKind)
    (comps : List Comp) :
    (Except Err (List (Comp × List ℚ))) × List Ev :=
  if srcKind ≠ SrcKind.moment then (.error .notImplemented, [])
  else if db.dump_type ≠ DumpType.displ_only then (.error .notImplemented, [])
  else
    match dl with
    | none => (.error (.unboundLocal "gll_point_ids"), [])
    | some d =>
      let r1 := getDisplacement o mm1 id_elem d.gll d.xi d.eta
      let r2 := getDisplacement o mm2 id_elem d.gll d.xi d.eta
      let r3 := getDisplacement o mm3 id_elem d.gll d.xi d.eta
      let r4 := getDisplacement o mm4 id_elem d.gll d.xi d.eta
      let evs :=
        evPair MeshId.m1 r1.2.2 ++ evPair MeshId.m2 r2.2.2
        ++ evPair MeshId.m3 r3.2.2 ++ evPair MeshId.m4 r4.2.2
      let displ_1 := r1.1
      let displ_2 := r2.1
      let displ_3 := r3.1
      let displ_4 := r4.1
      let mij := o.mijFwd
      let s := o.rotframe.1
      let phi := o.rotframe.2.1
      let z := o.rotframe.2.2
      let n := displ_1.1.length
      let fac_1 := mij 3 * o.cosQ phi + mij 4 * o.sinQ phi
      let fac_2 := -(mij 3) * o.sinQ phi + mij 4 * o.cosQ phi
      let fac_1q := (mij 1 - mij 2) * o.cosQ (2 * phi)
        + 2 * mij 5 * o.sinQ (2 * phi)
      let fac_2q := -(mij 1 - mij 2) * o.sinQ (2 * phi)
        + 2 * mij 5 * o.cosQ (2 * phi)
      let col0 :=
        addl (addl (addl (addl (zerosl n) (scl (mij 0) displ_1.1))
          (scl (mij 1 + mij 2) displ_2.1)) (scl fac_1 displ_3.1))
          (scl fac_1q displ_4.1)
      let col1 :=
        addl (addl (zerosl n) (scl fac_2 displ_3.2.1)) (scl fac_2q displ_4.2.1)
      let col2 :=
        addl (addl (addl (addl (zerosl n) (scl (mij 0) displ_1.2.2))
          (scl (mij 1 + mij 2) displ_2.2.2)) (scl fac_1 displ_3.2.2))
          (scl fac_1q displ_4.2.2)
      let rotmesh_colat := o.arctan2Q s z
      let dT :=
        if comps.contains Comp.T then [(Comp.T, negl col1)] else []
      let dR :=
        if comps.contains Comp.R then
          [(Comp.R, subl (scl (o.cosQ rotmesh_colat) col0)
            (scl (o.sinQ rotmesh_colat) col2))]
        else []
      let dNEZ :=
        if comps.contains Comp.N || comps.contains Comp.E
            || comps.contains Comp.Z then
          let rot := o.rotNEZ (col0, col1, col2)
          (if comps.contains Comp.N then [(Comp.N, rot.1)] else [])
          ++ (if comps.contains Comp.E then [(Comp.E, rot.2.1)] else [])
          ++ (if comps.contains Comp.Z then [(Comp.Z, rot.2.2)] else [])
        else []
      (.ok (dT ++ dR ++ dNEZ), evs)

/-- One iteration of the post-processing loop of lines 535-565 for a single
component: source-shift trim (when requested and reconvolution is off), or
STF reconvolution (missing-STF check, deconvolution kernel at self.nfft,
sample-interval compatibility check, substitute kernel and optional
linear-phase shift at self.nfft, spectral quotient, inverse transform
truncated to self.ndumps), then optional Lanczos resampling. -/
def postProcessComp (db : DB) (o : Ext) (src : Src) (args : Args)
    (xs : List ℚ) : Except Err (List ℚ) :=
  let step1 : Except Err (List ℚ) :=
    if args.remove_source_shift && !args.reconvolve_stf then
      .ok (xs.drop db.source_shift_samp)
    else if args.reconvolve_stf then
      match src.dt, src.sliprate with
      | some sdt, some sl =>
        let stf_deconv_f := FreqSig.rfft db.sliprate db.nfft
        if |(sdt - db.dtq) / db.dtq| > 1 / 10000000 then
          .error (.valueError "dt of the source not compatible")
        else
          let stf_conv_f0 := FreqSig.rfft sl db.nfft
          let stf_conv_f :=
            match src.time_shift with
            | some ts => FreqSig.phase stf_conv_f0 ts db.dtq db.nfft
            | none => stf_conv_f0
          let dataf := FreqSig.rfft xs db.nfft
          .ok ((o.irfft (FreqSig.div (FreqSig.mul dataf stf_conv_f)
            stf_deconv_f)).take db.ndumps)
      | _, _ => .error (.runtimeError "source has no source time function")
    else .ok xs
  match step1 with
  | .error e => .error e
  | .ok ys =>
    match args.dtOut with
    | some dtn => .ok (o.lanczosResamp ys db.dtq dtn args.a_lanczos)
    | none => .ok ys

/-- Write the binding of key c in the data dictionary: replace the first
occurrence, or append when absent (Python dict item assignment). -/
def setAssoc : List (Comp × List ℚ) → Comp → List ℚ → List (Comp × List ℚ)
  | [], c, v => [(c, v)]
  | (k, w) :: t, c, v =>
    if k = c then (c, v) :: t else (k, w) :: setAssoc t c v

/-- The post-processing loop over the requested components (lines 535-565):
per requested component, trim or reconvolve and optionally resample, writing
the result back into the data dictionary (so a component that is repeated in
the request is processed repeatedly, exactly as the dict mutation in the
source behaves). -/
def postProcess (db : DB) (o : Ext) (src : Src) (args : Args) :
    List Comp → List (Comp × List ℚ) → Except Err (List (Comp × List ℚ))
  | [], data => .ok data
  | c :: rest, data =>
    match postProcessComp db o src args ((data.lookup c).getD []) with
    | .error e => .error e
    | .ok ys => postProcess db o src args rest (setAssoc data c ys)

/-- Return value of get_seismograms: an obspy Stream (modelled as the list of
per-component series plus the sampling interval written to the headers), or
the raw data arrays plus the local shear modulus. -/
inductive Ret
  | stream (l : List (Comp × List ℚ)) (dtUsed : ℚ)
  | raw (l : List (Comp × List ℚ)) (mu : ℚ)
deriving DecidableEq, Repr

/-- Lines 567-587: run the post-processing loop, then either format the
stream (with dt falling back to the database interval) or return the raw
arrays together with mesh_mu at the centre GLL point of the located element
-- the latter uses gll_point_ids, which is bound only on the displ_only
point-location path, so a missing binding surfaces as Python's
UnboundLocalError. -/
def finalize (db : DB) (o : Ext) (src : Src) (args : Args)
    (dl : Option DisplLoc) (data : List (Comp × List ℚ)) : Except Err Ret :=
  match postProcess db o src args args.components data with
  | .error e => .error e
  | .ok pdata =>
    if args.return_obspy_stream then
      .ok (.stream
        (args.components.map (fun c => (c, (pdata.lookup c).getD [])))
        (args.dtOut.getD db.dtq))
    else
      match dl with
      | none => .error (.unboundLocal "gll_point_ids")
      | some d => .ok (.raw pdata (o.meshMu d.gll))

/-- The reciprocal branch of get_seismograms (lines 225-241 and 309-459
followed by the shared tail): capability checks, depth-override warning,
point location, source-kind dispatch, post-processing and return-shape
selection. -/
def getSeisBwd (db : DB) (o : Ext) (src : Src) (rcv : Receiver) (args : Args)
    (px pz : Option MeshData) : (Except Err Ret) × List Ev :=
  if needHoriz args.components && px.isNone then
    (.error (.valueError "vertical component only DB"), [])
  else if args.components.contains Comp.Z && pz.isNone then
    (.error (.valueError "horizontal component only DB"), [])
  else
    match locatePhase db o with
    | (.error e, evl) =>
      (.error e, (if rcv.depth_in_m.isSome then [Ev.warnDepth] else []) ++ evl)
    | (.ok (id_elem, dl), evl) =>
      match (match src.kind with
        | SrcKind.moment =>
          combineRecipMoment db o px pz id_elem dl args.components
        | SrcKind.force =>
          combineRecipForce db o px pz id_elem dl args.components
        | SrcKind.other => ((.error .notImplemented), ([] : List Ev))) with
      | (.error e, evc) =>
        (.error e,
          (if rcv.depth_in_m.isSome then [Ev.warnDepth] else []) ++ evl ++ evc)
      | (.ok data, evc) =>
        (finalize db o src args dl data,
          (if rcv.depth_in_m.isSome then [Ev.warnDepth] else []) ++ evl ++ evc)

/-- The forward branch of get_seismograms (lines 243-252 and 461-533
followed by the shared tail). -/
def getSeisFwd (db : DB) (o : Ext) (src : Src) (args : Args)
    (mm1 mm2 mm3 mm4 : MeshData) : (Except Err Ret) × List Ev :=
  match locatePhase db o with
  | (.error e, evl) =>
    (.error e, (if src.depth_in_m.isSome then [Ev.warnDepth] else []) ++ evl)
  | (.ok (id_elem, dl), evl) =>
    match combineForward db o mm1 mm2 mm3 mm4 id_elem dl src.kind
        args.components with
    | (.error e, evc) =>
      (.error e,
        (if src.depth_in_m.isSome then [Ev.warnDepth] else []) ++ evl ++ evc)
    | (.ok data, evc) =>
      (finalize db o src args dl data,
        (if src.depth_in_m.isSome then [Ev.warnDepth] else []) ++ evl ++ evc)

/-- get_seismograms (lines 199-587): capability checks in reciprocal mode,
depth-override warnings, point location, the mode- and source-kind-specific
combination, post-processing and the return-shape selection.  Returns the
result together with the event trace of the call. -/
def getSeismograms (db : DB) (o : Ext) (src : Src) (rcv : Receiver)
    (args : Args) : (Except Err Ret) × List Ev :=
  match db.meshes with
  | .bwd px pz => getSeisBwd db o src rcv args px pz
  | .fwd mm1 mm2 mm3 mm4 => getSeisFwd db o src args mm1 mm2 mm3 mm4

/-- Replace the binding of key c in an association list (first occurrence). -/
def updateAssoc : List (Comp × List ℚ) → Comp → List ℚ → List (Comp × List ℚ)
  | [], _, _ => []
  | (k, w) :: t, c, v =>
    if k = c then (c, v) :: t else (k, w) :: updateAssoc t c v

/-- data_summed accumulation of lines 625-629: for each requested component,
add the scaled sub-source contribution to the running sum, or create the
entry on first touch. -/
def accumulate (corr : ℚ) (comps : List Comp) (data acc : List (Comp × List ℚ)) :
    List (Comp × List ℚ) :=
  comps.foldl (fun a c =>
    let v := scl corr ((data.lookup c).getD [])
    match a.lookup c with
    | some old => updateAssoc a c (addl old v)
    | none => a ++ [(c, v)]) acc

/-- The sub-source loop of get_seismograms_finite_source (lines 614-633):
run the single-source pipeline per sub-source with reconvolution forced on
and raw-array return, accumulate the per-component sums, and after each
sub-source invoke the progress callback; a true cancel flag aborts the loop
and yields none (the partial sums are dropped).  The index argument is the
0-based loop counter. -/
def finiteLoop (db : DB) (o : Ext) (rcv : Receiver) (comps : List Comp)
    (correct_mu : Bool) (cb : Option (ℕ → ℕ → Bool)) (count : ℕ) :
    ℕ → List Src → List (Comp × List ℚ) → List Ev →
    (Except Err (Option (List (Comp × List ℚ)))) × List Ev
  | _, [], acc, tr => (.ok (some acc), tr)
  | i, src :: rest, acc, tr =>
    let r := getSeismograms db o src rcv
      { components := comps, remove_source_shift := true,
        reconvolve_stf := true, return_obspy_stream := false,
        dtOut := none, a_lanczos := 5 }
    match r with
    | (.error e, ev) => (.error e, tr ++ ev)
    | (.ok (.stream _ _), ev) =>
      -- unreachable: return_obspy_stream is false for the inner call
      (.error (.runtimeError "unexpected stream"), tr ++ ev)
    | (.ok (.raw data mu), ev) =>
      let corr := if correct_mu then mu / DEFAULT_MU else 1
      let acc' := accumulate corr comps data acc
      match cb with
      | some f =>
        if f (i + 1) count then (.ok none, tr ++ ev)
        else finiteLoop db o rcv comps correct_mu cb count (i + 1) rest acc'
          (tr ++ ev)
      | none =>
        finiteLoop db o rcv comps correct_mu cb count (i + 1) rest acc'
          (tr ++ ev)

/-- get_seismograms_finite_source (lines 589-652): reciprocal databases only
(forward mode raises NotImplementedError before any sub-source is
processed); the sub-source loop with cancellable progress reporting; one
final optional resampling of the completed sums; stream formatting over the
requested components.  Returns some data on completion and none on
cancellation. -/
def getSeismogramsFiniteSource (db : DB) (o : Ext) (sources : List Src)
    (rcv : Receiver) (comps : List Comp) (dtOut : Option ℚ) (a_lanczos : ℕ)
    (correct_mu : Bool) (cb : Option (ℕ → ℕ → Bool)) :
    (Except Err (Option (List (Comp × List ℚ)))) × List Ev :=
  if db.reciprocal = false then (.error .notImplemented, [])
  else
    match finiteLoop db o rcv comps correct_mu cb sources.length 0 sources [] [] with
    | (.error e, tr) => (.error e, tr)
    | (.ok none, tr) => (.ok none, tr)
    | (.ok (some acc), tr) =>
      let acc2 :=
        match dtOut with
        | some dtn =>
          comps.map (fun c =>
            (c, o.lanczosResamp ((acc.lookup c).getD []) db.dtq dtn a_lanczos))
        | none => comps.map (fun c => (c, (acc.lookup c).getD []))
      (.ok (some acc2), tr)

instance {ε α : Type} [DecidableEq ε] [DecidableEq α] :
    DecidableEq (Except ε α) := fun x y =>
  match x, y with
  | .error a, .error b =>
    if h : a = b then .isTrue (by rw [h])
    else .isFalse (fun hc => h (by cases hc; rfl))
  | .error _, .ok _ => .isFalse (fun hc => Except.noConfusion hc)
  | .ok _, .error _ => .isFalse (fun hc => Except.noConfusion hc)
  | .ok a, .ok b =>
    if h : a = b then .isTrue (by rw [h])
    else .isFalse (fun hc => h (by cases hc; rfl))

/-! Concrete configurations used to exercise the model on closed inputs. -/

/-- A receiver with no depth override. -/
def rcv0 : Receiver := ⟨none⟩

/-- A small mesh with all strain variables present and two time samples. -/
def meshDefault : MeshData where
  excitation_type := .dipole
  ndumps := 2
  hasStrainVar := fun _ => true
  strainVar := fun i id => [((i : ℕ) : ℚ) + id, ((i : ℕ) : ℚ)]
  displRaw := fun _ => [1, 2]
  strain_buffer := []
  strain_buffer_nodes := []
  displ_buffer := []

/-- Simple concrete oracles: the spatial index returns the first k ids, every
membership test succeeds at the queried point, interpolation passes the
payload through, and the trigonometric and rotation oracles are arbitrary
fixed functions. -/
def extDefault : Ext where
  kdQuery := fun k => List.range k
  inside := fun _ _ => (true, 0, 0)
  gllIdsOf := fun i => i
  axisOf := fun _ => false
  strainTd := fun _ xs => xs
  lagrange6 := fun xs _ _ _ => xs
  lagrange3 := fun xs _ _ _ => xs
  rotframe := (1, 2, 3)
  mijRot := fun _ => 1
  mijFwd := fun _ => 1
  forceRot := fun _ => 1
  cosQ := fun x => x
  sinQ := fun x => x + 1
  arctan2Q := fun a b => a + b
  rotNEZ := fun t => t
  irfft := fun _ => []
  lanczosResamp := fun xs _ _ _ => xs
  meshMu := fun _ => 7

/-- Oracles whose inverse transform reports the rfft transform lengths of
its symbolic argument, making the chosen zero-padding observable in the
output samples. -/
def extLens : Ext :=
  { extDefault with irfft := fun e => (rfftLens e).map (fun n => (n : ℚ)) }

/-- Oracles for the point-locator runs: six candidates for k = 6, failing
membership until element 12, which is accepted with xi = 1/2, eta = 1/3. -/
def ext1 : Ext :=
  { extDefault with
    kdQuery := fun k => if k = 6 then [10, 11, 12, 13, 14, 15] else [20]
    inside := fun i _ => if i = 12 then (true, 1 / 2, 1 / 3) else (false, 0, 0) }

/-- Oracles whose membership test always fails. -/
def ext1f : Ext :=
  { extDefault with
    kdQuery := fun k => if k = 6 then [10, 11, 12, 13, 14, 15] else [20]
    inside := fun _ _ => (false, 0, 0) }

/-- A mesh whose fourth strain variable (strain_dsup) is absent. -/
def mesh3 : MeshData :=
  { meshDefault with
    hasStrainVar := fun i => decide (i ≠ 3)
    strainVar := fun i _ => [((i : ℕ) : ℚ) + 1, ((i : ℕ) : ℚ) + 10] }

/-- A reciprocal displ_only database with both polarizations. -/
def dbDispl : DB where
  meshes := .bwd (some meshDefault) (some meshDefault)
  dump_type := .displ_only
  ndumps := 2
  dtq := 1
  sliprate := [1]
  source_shift_samp := 0

/-- A reciprocal strain_only database with both polarizations and five
dumps. -/
def dbStrain : DB where
  meshes := .bwd (some meshDefault) (some meshDefault)
  dump_type := .strain_only
  ndumps := 5
  dtq := 1
  sliprate := [1, 2]
  source_shift_samp := 0

/-- A reciprocal database opened with the horizontal-force mesh missing. -/
def dbNoPx : DB where
  meshes := .bwd none (some meshDefault)
  dump_type := .strain_only
  ndumps := 5
  dtq := 1
  sliprate := [1]
  source_shift_samp := 0

/-- A forward database (four elemental meshes). -/
def dbFwd : DB where
  meshes := .fwd meshDefault meshDefault meshDefault meshDefault
  dump_type := .displ_only
  ndumps := 2
  dtq := 1
  sliprate := [1]
  source_shift_samp := 0

/-- A moment-tensor source carrying a source time function whose sample
interval matches the databases above. -/
def srcMoment : Src where
  kind := .moment
  dt := some 1
  sliprate := some [3]
  time_shift := none
  depth_in_m := none

/-- A moment-tensor source with no attached source time function. -/
def srcNoStf : Src where
  kind := .moment
  dt := none
  sliprate := none
  time_shift := none
  depth_in_m := none

/-- Request Z with reconvolution. -/
def argsZrecon : Args where
  components := [Comp.Z]
  remove_source_shift := true
  reconvolve_stf := true
  return_obspy_stream := true
  dtOut := none
  a_lanczos := 5

/-- Request no components at all, with reconvolution. -/
def argsEmptyRecon : Args where
  components := []
  remove_source_shift := true
  reconvolve_stf := true
  return_obspy_stream := true
  dtOut := none
  a_lanczos := 5

/-- Request Z as raw arrays (no obspy stream), without reconvolution. -/
def argsRawStrain : Args where
  components := [Comp.Z]
  remove_source_shift := true
  reconvolve_stf := false
  return_obspy_stream := false
  dtOut := none
  a_lanczos := 5

/-- Request Z as a stream, without reconvolution. -/
def argsZ : Args where
  components := [Comp.Z]
  remove_source_shift := true
  reconvolve_stf := false
  return_obspy_stream := true
  dtOut := none
  a_lanczos := 5

/-- Request N as a stream. -/
def argsN : Args where
  components := [Comp.N]
  remove_source_shift := true
  reconvolve_stf := false
  return_obspy_stream := true
  dtOut := none
  a_lanczos := 5

/-- Request no components as a stream, without reconvolution. -/
def argsEmptyStream : Args where
  components := []
  remove_source_shift := true
  reconvolve_stf := false
  return_obspy_stream := true
  dtOut := none
  a_lanczos := 5

/-- A progress callback that signals cancellation exactly after the second
sub-source. -/
def c8cb : ℕ → ℕ → Bool := fun k _ => decide (k = 2)

/-- The mesh collection of the forward counterexample: the MZZ mesh's nodal
displacement payload is the two free samples (a, b). -/
def c9mesh1 (a b : ℚ) : MeshData :=
  { meshDefault with displRaw := fun _ => [a, b] }

/-- Forward database whose MZZ (first elemental) mesh stores (a, b). -/
def c9db (a b : ℚ) : DB where
  meshes := .fwd (c9mesh1 a b) meshDefault meshDefault meshDefault
  dump_type := .displ_only
  ndumps := 2
  dtq := 1
  sliprate := [1]
  source_shift_samp := 0

/-- Request only the transverse component, no trimming, no reconvolution. -/
def c9args : Args where
  components := [Comp.T]
  remove_source_shift := false
  reconvolve_stf := false
  return_obspy_stream := true
  dtOut := none
  a_lanczos := 5

/-- The T-only forward synthesis as a function of the MZZ mesh's stored
field samples. -/
def c9TOut (a b : ℚ) : (Except Err Ret) × List Ev :=
  getSeismograms (c9db a b) extDefault srcMoment rcv0 c9args

/-- The MZZ mesh's stored field contributes nothing to the requested
component set set-of-T: the whole call result (output and trace) is
independent of the stored samples. -/
def c9M1FieldIrrelevantForT : Prop := ∀ a b : ℚ, c9TOut a b = c9TOut 0 0

/-! Helper lemmas. -/

theorem getD_negl (xs : List ℚ) (t : ℕ) :
    (negl xs).getD t 0 = -(xs.getD t 0) := by
  induction xs generalizing t with
  | nil => simp [negl]
  | cons x xs ih =>
    cases t with
    | zero => simp [negl]
    | succ t =>
      simp only [negl, List.map_cons, List.getD_cons_succ]
      exact ih t

theorem getD_subl (xs ys : List ℚ) (t : ℕ) (hx : t < xs.length)
    (hy : t < ys.length) :
    (subl xs ys).getD t 0 = xs.getD t 0 - ys.getD t 0 := by
  induction xs generalizing ys t with
  | nil => simp at hx
  | cons x xs ih =>
    cases ys with
    | nil => simp at hy
    | cons y ys =>
      cases t with
      | zero => simp [subl]
      | succ t =>
        simp only [List.length_cons, Nat.succ_lt_succ_iff] at hx hy
        simpa [subl] using ih ys t hx hy

theorem length_subl (xs ys : List ℚ) :
    (subl xs ys).length = min xs.length ys.length := by
  simp [subl]

theorem length_negl (xs : List ℚ) : (negl xs).length = xs.length := by
  simp [negl]

theorem getD_zerosl (n t : ℕ) : (zerosl n).getD t 0 = 0 := by
  induction n generalizing t with
  | zero => simp [zerosl]
  | succ n ih =>
    cases t with
    | zero => simp [zerosl, List.replicate]
    | succ t =>
      simp only [zerosl, List.replicate, List.getD_cons_succ]
      exact ih t

theorem length_strainTempChannel (ndumps : ℕ) (m : MeshData) (id_elem : ℕ)
    (hlen : ∀ i : Fin 6, m.hasStrainVar i = true →
      (m.strainVar i id_elem).length = ndumps) (i : Fin 6) :
    (strainTempChannel ndumps m id_elem i).length = ndumps := by
  unfold strainTempChannel
  by_cases h : m.hasStrainVar i
  · rw [if_pos h]; exact hlen i h
  · rw [if_neg h]; simp [zerosl]

theorem findElement_all_fail (o : Ext) (l : List ℕ)
    (h : ∀ i ∈ l, (o.inside i (1 / 1000)).1 = false) :
    (findElement o l).1 = .error (.valueError "Element not found") := by
  induction l with
  | nil => rfl
  | cons x xs ih =>
    have hx := h x (List.mem_cons_self x xs)
    simp only [findElement]
    rw [if_neg (by rw [hx]; exact Bool.false_ne_true)]
    exact ih (fun i hi => h i (List.mem_cons_of_mem x hi))

theorem findElement_first_pass (o : Ext) (l1 : List ℕ) (idx : ℕ) (l2 : List ℕ)
    (hfail : ∀ j ∈ l1, (o.inside j (1 / 1000)).1 = false)
    (hpass : (o.inside idx (1 / 1000)).1 = true) :
    (findElement o (l1 ++ idx :: l2)).1 =
      .ok (idx, (o.inside idx (1 / 1000)).2.1, (o.inside idx (1 / 1000)).2.2) := by
  induction l1 with
  | nil =>
    simp only [List.nil_append, findElement]
    rw [if_pos hpass]
  | cons x xs ih =>
    have hx := hfail x (List.mem_cons_self x xs)
    simp only [List.cons_append, findElement]
    rw [if_neg (by rw [hx]; exact Bool.false_ne_true)]
    exact ih (fun j hj => hfail j (List.mem_cons_of_mem x hj))

theorem findElement_no_extract (o : Ext) (l : List ℕ) (mid : MeshId) :
    Ev.extract mid ∉ (findElement o l).2 := by
  induction l with
  | nil => simp [findElement]
  | cons x xs ih =>
    simp only [findElement]
    by_cases hx : (o.inside x (1 / 1000)).1 = true
    · rw [if_pos hx]
      simp
    · rw [if_neg hx]
      simp only [List.mem_cons]
      rintro (h | h)
      · exact Ev.noConfusion h
      · exact ih h

theorem findElement_no_inside (o : Ext) (l : List ℕ) (i : ℕ)
    (hni : i ∉ l) : Ev.insideTest i ∉ (findElement o l).2 := by
  induction l with
  | nil => simp [findElement]
  | cons x xs ih =>
    have hxne : i ≠ x := fun h => hni (h ▸ List.mem_cons_self x xs)
    have hrest : i ∉ xs := fun h => hni (List.mem_cons_of_mem x h)
    simp only [findElement]
    by_cases hx : (o.inside x (1 / 1000)).1 = true
    · rw [if_pos hx]
      simp [hxne]
    · rw [if_neg hx]
      simp only [List.mem_cons]
      rintro (h | h)
      · exact hxne (Ev.insideTest.inj h)
      · exact ih hrest h

theorem getSeismograms_bwd (db : DB) (o : Ext) (src : Src) (rcv : Receiver)
    (args : Args) (px pz : Option MeshData) (hm : db.meshes = .bwd px pz) :
    getSeismograms db o src rcv args = getSeisBwd db o src rcv args px pz := by
  unfold getSeismograms
  rw [hm]

theorem getSeismograms_fwd (db : DB) (o : Ext) (src : Src) (rcv : Receiver)
    (args : Args) (mm1 mm2 mm3 mm4 : MeshData)
    (hm : db.meshes = .fwd mm1 mm2 mm3 mm4) :
    getSeismograms db o src rcv args =
      getSeisFwd db o src args mm1 mm2 mm3 mm4 := by
  unfold getSeismograms
  rw [hm]

/-! Claim theorems. -/

/-- C1: on a DisplacementOnly database the point locator queries the spatial
index with k = 6, tests the candidates in order with the inverse
isoparametric mapping at tolerance 1e-3, accepts the first passing candidate
with its element id and local coordinates, and raises the
"Element not found" ValueError when every candidate fails; for every other
dump type it queries k = 1 and returns the single nearest element id with no
membership test. -/
theorem c1_point_locator (db : DB) (o : Ext) :
    ((locatePhase db o).2.head? = some (Ev.kdQuery (kMap db.dump_type)))
    ∧ (db.dump_type = DumpType.displ_only →
        kMap db.dump_type = 6
        ∧ ((∀ i ∈ o.kdQuery 6, (o.inside i (1 / 1000)).1 = false) →
            (locatePhase db o).1 = .error (.valueError "Element not found"))
        ∧ (∀ l1 idx l2, o.kdQuery 6 = l1 ++ idx :: l2 →
            (∀ j ∈ l1, (o.inside j (1 / 1000)).1 = false) →
            (o.inside idx (1 / 1000)).1 = true →
            (locatePhase db o).1 = .ok (idx, some
              ⟨(o.inside idx (1 / 1000)).2.1, (o.inside idx (1 / 1000)).2.2,
                o.gllIdsOf idx, o.axisOf idx⟩)))
    ∧ (db.dump_type ≠ DumpType.displ_only →
        kMap db.dump_type = 1
        ∧ (locatePhase db o).1 = .ok ((o.kdQuery 1).headD 0, none)
        ∧ ∀ i, Ev.insideTest i ∉ (locatePhase db o).2) := by
  refine ⟨?_, ?_, ?_⟩
  · unfold locatePhase
    by_cases h : db.dump_type = DumpType.displ_only
    · rw [if_pos h]
      rcases hfe : findElement o (o.kdQuery (kMap db.dump_type)) with ⟨res, evs⟩
      cases res with
      | error e => rfl
      | ok v =>
        rcases v with ⟨id_elem, xi, eta⟩
        rfl
    · rw [if_neg h]
      rfl
  · intro h
    have hk : kMap db.dump_type = 6 := by simp [h, kMap]
    refine ⟨hk, ?_, ?_⟩
    · intro hall
      have hfe := findElement_all_fail o (o.kdQuery 6) hall
      unfold locatePhase
      rw [if_pos h, hk]
      rcases hfe2 : findElement o (o.kdQuery 6) with ⟨res, evs⟩
      rw [hfe2] at hfe
      simp only at hfe
      rw [hfe]
    · intro l1 idx l2 hsplit hfail hpass
      have hfe := findElement_first_pass o l1 idx l2 hfail hpass
      rw [← hsplit] at hfe
      unfold locatePhase
      rw [if_pos h, hk]
      rcases hfe2 : findElement o (o.kdQuery 6) with ⟨res, evs⟩
      rw [hfe2] at hfe
      simp only at hfe
      rw [hfe]
  · intro h
    have hk : kMap db.dump_type = 1 := by
      cases hd : db.dump_type with
      | displ_only => exact absurd hd h
      | strain_only => rfl
      | fullfields => rfl
    refine ⟨hk, ?_, ?_⟩
    · unfold locatePhase
      rw [if_neg h, hk]
    · intro i
      unfold locatePhase
      rw [if_neg h]
      simp

/-- Witness for C1: with six candidates 10..15 where 10 and 11 fail and 12
passes at (1/2, 1/3), the locator returns element 12 with those local
coordinates; with every membership test failing it raises the
"Element not found" error; on a strain_only database it returns the single
nearest element with no membership test. -/
theorem c1_point_locator_witness :
    (locatePhase dbDispl ext1).1 = .ok (12, some ⟨1 / 2, 1 / 3, 12, false⟩)
    ∧ (locatePhase dbDispl ext1f).1 = .error (.valueError "Element not found")
    ∧ (locatePhase dbStrain ext1).1 = .ok (20, none) := by
  refine ⟨?_, ?_, ?_⟩
  · have h := (c1_point_locator dbDispl ext1).2.1 rfl
    have h3 := h.2.2 [10, 11] 12 [13, 14, 15] rfl (by decide) rfl
    rw [h3]
    rfl
  · refine ((c1_point_locator dbDispl ext1f).2.1 rfl).2.1 ?_
    intro i _
    rfl
  · have h := ((c1_point_locator dbStrain ext1).2.2 (by decide)).2.1
    rw [h]
    rfl

/-- C2: on a reciprocal database, requesting any of N, E, R, T with the
horizontal-force mesh absent, or Z with the vertical-force mesh absent,
fails with the capability-mismatch ValueError and with an empty event trace:
no spatial query, membership test, field extraction or raw-storage read has
happened. -/
theorem c2_capability_checks (db : DB) (o : Ext) (src : Src) (rcv : Receiver)
    (args : Args) (px pz : Option MeshData)
    (hm : db.meshes = .bwd px pz)
    (hbad : (needHoriz args.components = true ∧ px = none)
      ∨ (args.components.contains Comp.Z = true ∧ pz = none)) :
    (∃ msg, (getSeismograms db o src rcv args).1 = .error (.valueError msg))
    ∧ (getSeismograms db o src rcv args).2 = [] := by
  rw [getSeismograms_bwd db o src rcv args px pz hm]
  unfold getSeisBwd
  rcases hbad with ⟨hh, hpx⟩ | ⟨hz, hpz⟩
  · subst hpx
    rw [if_pos (show (needHoriz args.components && Option.isNone none) = true
      by rw [hh]; rfl)]
    exact ⟨⟨"vertical component only DB", rfl⟩, rfl⟩
  · by_cases hfirst : (needHoriz args.components && px.isNone) = true
    · rw [if_pos hfirst]
      exact ⟨⟨"vertical component only DB", rfl⟩, rfl⟩
    · subst hpz
      rw [if_neg hfirst,
        if_pos (show (args.components.contains Comp.Z
          && Option.isNone none) = true by rw [hz]; rfl)]
      exact ⟨⟨"horizontal component only DB", rfl⟩, rfl⟩

/-- Witness for C2: requesting N on a reciprocal database with no
horizontal-force mesh fails with a ValueError and an empty trace. -/
theorem c2_capability_checks_witness :
    (∃ msg, (getSeismograms dbNoPx extDefault srcMoment rcv0 argsN).1 =
      .error (.valueError msg))
    ∧ (getSeismograms dbNoPx extDefault srcMoment rcv0 argsN).2 = [] :=
  c2_capability_checks dbNoPx extDefault srcMoment rcv0 argsN none
    (some meshDefault) rfl (Or.inl ⟨by decide, rfl⟩)

theorem lookup_cons_self_nat {β : Type} (a : ℕ) (b : β) (l : List (ℕ × β)) :
    List.lookup a ((a, b) :: l) = some b := by
  simp [List.lookup]

/-- C3: on a cache miss the whole-element strain decode produces a [time, 6]
Voigt tensor in which channels 0, 4, 1 are plain copies of stored channels
strain_dsus, strain_dsuz, strain_dpup, the zz-derived channel 2 is
straintrace minus strain_dsus minus strain_dpup, exactly the two channels 3
and 5 are sign-flipped copies (of strain_dzup and strain_dsup), and a
channel absent from storage contributes exactly zero everywhere. -/
theorem c3_strain_decode (ndumps : ℕ) (m : MeshData) (id_elem : ℕ) (t : ℕ)
    (hmiss : m.strain_buffer.lookup id_elem = none)
    (hlen : ∀ i : Fin 6, m.hasStrainVar i = true →
      (m.strainVar i id_elem).length = ndumps)
    (ht : t < ndumps) :
    ((getStrain ndumps m id_elem).1.c0.getD t 0 = chVal ndumps m id_elem 0 t
      ∧ (getStrain ndumps m id_elem).1.c1.getD t 0 = chVal ndumps m id_elem 2 t
      ∧ (getStrain ndumps m id_elem).1.c2.getD t 0 =
          chVal ndumps m id_elem 5 t - chVal ndumps m id_elem 0 t
            - chVal ndumps m id_elem 2 t
      ∧ (getStrain ndumps m id_elem).1.c3.getD t 0 =
          -chVal ndumps m id_elem 4 t
      ∧ (getStrain ndumps m id_elem).1.c4.getD t 0 = chVal ndumps m id_elem 1 t
      ∧ (getStrain ndumps m id_elem).1.c5.getD t 0 =
          -chVal ndumps m id_elem 3 t)
    ∧ (∀ i : Fin 6, ((getStrain ndumps m id_elem).1.channel i).length = ndumps)
    ∧ (∀ i : Fin 6, m.hasStrainVar i = false →
        ∀ u : ℕ, chVal ndumps m id_elem i u = 0) := by
  have hg : (getStrain ndumps m id_elem).1 = decodeStrain ndumps m id_elem := by
    unfold getStrain
    rw [hmiss]
  have hlc : ∀ i : Fin 6,
      (strainTempChannel ndumps m id_elem i).length = ndumps :=
    length_strainTempChannel ndumps m id_elem hlen
  refine ⟨?_, ?_, ?_⟩
  · rw [hg]
    unfold decodeStrain chVal
    refine ⟨rfl, rfl, ?_, getD_negl _ t, rfl, getD_negl _ t⟩
    rw [getD_subl _ _ t (by rw [length_subl, hlc, hlc]; omega)
        (by rw [hlc]; exact ht),
      getD_subl _ _ t (by rw [hlc]; exact ht) (by rw [hlc]; exact ht)]
  · intro i
    rw [hg]
    fin_cases i <;>
      simp [decodeStrain, Strain6.channel, length_subl, length_negl, hlc,
        Nat.min_self]
  · intro i hi u
    unfold chVal strainTempChannel
    rw [if_neg (by rw [hi]; exact Bool.false_ne_true)]
    exact getD_zerosl ndumps u

/-- Witness for C3: a mesh whose fourth stored channel (strain_dsup) is
absent, two dumps, element 0, sample index 1: the decode satisfies all the
stated channel equations, each decoded channel has length 2, and the absent
channel contributes zero. -/
theorem c3_strain_decode_witness :
    ((getStrain 2 mesh3 0).1.c0.getD 1 0 = chVal 2 mesh3 0 0 1
      ∧ (getStrain 2 mesh3 0).1.c1.getD 1 0 = chVal 2 mesh3 0 2 1
      ∧ (getStrain 2 mesh3 0).1.c2.getD 1 0 =
          chVal 2 mesh3 0 5 1 - chVal 2 mesh3 0 0 1 - chVal 2 mesh3 0 2 1
      ∧ (getStrain 2 mesh3 0).1.c3.getD 1 0 = -chVal 2 mesh3 0 4 1
      ∧ (getStrain 2 mesh3 0).1.c4.getD 1 0 = chVal 2 mesh3 0 1 1
      ∧ (getStrain 2 mesh3 0).1.c5.getD 1 0 = -chVal 2 mesh3 0 3 1)
    ∧ (∀ i : Fin 6, ((getStrain 2 mesh3 0).1.channel i).length = 2)
    ∧ (∀ i : Fin 6, mesh3.hasStrainVar i = false →
        ∀ u : ℕ, chVal 2 mesh3 0 i u = 0) :=
  c3_strain_decode 2 mesh3 0 1 rfl (by decide) (by decide)

/-- C4: extraction is idempotent per element: re-extracting the same element
from the state left by a first extraction returns the identical tensor,
performs zero raw-storage reads, and leaves the mesh state unchanged -- for
both the whole-element strain extractor and the displacement extractor. -/
theorem c4_cache_idempotent (ndumps : ℕ) (m : MeshData) (id_elem : ℕ)
    (o : Ext) (gll : ℕ) (xi eta : ℚ) :
    ((getStrain ndumps (getStrain ndumps m id_elem).2.1 id_elem).1 =
        (getStrain ndumps m id_elem).1
      ∧ (getStrain ndumps (getStrain ndumps m id_elem).2.1 id_elem).2.2 = 0
      ∧ (getStrain ndumps (getStrain ndumps m id_elem).2.1 id_elem).2.1 =
        (getStrain ndumps m id_elem).2.1)
    ∧ ((getDisplacement o (getDisplacement o m id_elem gll xi eta).2.1
          id_elem gll xi eta).1 = (getDisplacement o m id_elem gll xi eta).1
      ∧ (getDisplacement o (getDisplacement o m id_elem gll xi eta).2.1
          id_elem gll xi eta).2.2 = 0
      ∧ (getDisplacement o (getDisplacement o m id_elem gll xi eta).2.1
          id_elem gll xi eta).2.1 =
        (getDisplacement o m id_elem gll xi eta).2.1) := by
  constructor
  · rcases hl : m.strain_buffer.lookup id_elem with _ | s
    · simp [getStrain, hl, lookup_cons_self_nat]
    · simp [getStrain, hl]
  · rcases hl : m.displ_buffer.lookup id_elem with _ | u
    · simp [getDisplacement, hl, lookup_cons_self_nat]
    · simp [getDisplacement, hl]

/-- C5: in the strain-from-displacement path, after per-channel Lagrange
interpolation at (xi, eta), exactly the Voigt channels 3 and 5 are negated,
and they are negated exactly when the mesh's excitation type is not
monopole; for monopole excitation every channel is the plain interpolation
result. -/
theorem c5_nonmonopole_sign_flip (o : Ext) (m : MeshData) (id_elem gll : ℕ)
    (xi eta : ℚ) (i : Fin 6) :
    ((getStrainInterp o m id_elem gll xi eta).1).channel i =
      (if (i = 3 ∨ i = 5) ∧ m.excitation_type ≠ ExcitationType.monopole then
        negl (o.lagrange6 (strainNodesOf o m id_elem gll) i xi eta)
      else o.lagrange6 (strainNodesOf o m id_elem gll) i xi eta) := by
  rcases hl : m.strain_buffer_nodes.lookup id_elem with _ | s <;>
  · simp only [getStrainInterp, strainNodesOf, hl]
    by_cases hme : m.excitation_type = ExcitationType.monopole
    · rw [if_pos hme, if_neg (by simp [hme])]
      fin_cases i <;> rfl
    · rw [if_neg hme]
      fin_cases i <;> simp [Strain6.channel, hme]

theorem np2aux_succ_stable (n : ℕ) : ∀ fuel acc, n ≤ 2 ^ fuel * acc →
    np2aux (fuel + 1) n acc = np2aux fuel n acc := by
  intro fuel
  induction fuel with
  | zero =>
    intro acc h
    simp only [pow_zero, one_mul] at h
    simp [np2aux, h]
  | succ fuel ih =>
    intro acc h
    show (if n ≤ acc then acc else np2aux (fuel + 1) n (acc * 2)) =
      (if n ≤ acc then acc else np2aux fuel n (acc * 2))
    by_cases hc : n ≤ acc
    · rw [if_pos hc, if_pos hc]
    · rw [if_neg hc, if_neg hc]
      refine ih (acc * 2) ?_
      calc n ≤ 2 ^ (fuel + 1) * acc := h
        _ = 2 ^ fuel * (acc * 2) := by ring

theorem np2aux_add_stable (n g : ℕ) : ∀ fuel acc, n ≤ 2 ^ fuel * acc →
    np2aux (fuel + g) n acc = np2aux fuel n acc := by
  induction g with
  | zero => intro fuel acc _; rfl
  | succ g ih =>
    intro fuel acc h
    have h2 : n ≤ 2 ^ (fuel + g) * acc :=
      h.trans (Nat.mul_le_mul_right acc
        (Nat.pow_le_pow_right (by norm_num) (Nat.le_add_right fuel g)))
    calc np2aux (fuel + (g + 1)) n acc = np2aux ((fuel + g) + 1) n acc := by
          rw [Nat.add_succ]
      _ = np2aux (fuel + g) n acc := np2aux_succ_stable n (fuel + g) acc h2
      _ = np2aux fuel n acc := ih fuel acc h

theorem np2aux_double (n : ℕ) : ∀ fuel acc,
    np2aux fuel (2 * n) (2 * acc) = 2 * np2aux fuel n acc := by
  intro fuel
  induction fuel with
  | zero => intro acc; rfl
  | succ fuel ih =>
    intro acc
    show (if 2 * n ≤ 2 * acc then 2 * acc else np2aux fuel (2 * n) (2 * acc * 2))
      = 2 * (if n ≤ acc then acc else np2aux fuel n (acc * 2))
    by_cases hc : n ≤ acc
    · rw [if_pos (by omega), if_pos hc]
    · rw [if_neg (by omega), if_neg hc]
      have h2 : 2 * acc * 2 = 2 * (acc * 2) := by ring
      rw [h2]
      exact ih (acc * 2)

/-- For a positive dump count, the code's transform length nextpow2(n) * 2
is exactly the next power of two at or above twice the dump count. -/
theorem nextpow2_two_mul (n : ℕ) (hn : 1 ≤ n) :
    nextpow2 (2 * n) = 2 * nextpow2 n := by
  unfold nextpow2
  have hfuel : 2 * n = (n + 1) + (n - 1) := by omega
  have hpow : 2 * n ≤ 2 ^ (n + 1) * 1 := by
    have h2 := Nat.lt_two_pow n
    calc 2 * n ≤ 2 * 2 ^ n := by omega
      _ = 2 ^ (n + 1) * 1 := by ring
  calc np2aux (2 * n) (2 * n) 1
      = np2aux ((n + 1) + (n - 1)) (2 * n) 1 := by rw [← hfuel]
    _ = np2aux (n + 1) (2 * n) 1 :=
        np2aux_add_stable (2 * n) (n - 1) (n + 1) 1 hpow
    _ = np2aux n (2 * n) (1 * 2) := by
        show (if 2 * n ≤ 1 then 1 else np2aux n (2 * n) (1 * 2)) = _
        rw [if_neg (by omega)]
    _ = np2aux n (2 * n) (2 * 1) := by norm_num
    _ = 2 * np2aux n n 1 := np2aux_double n n 1

/-- The reconvolution arm of the post-processing loop, evaluated: all three
spectra at self.nfft, substitute kernel optionally phase-shifted, spectral
quotient inverted and truncated to self.ndumps. -/
theorem postProcessComp_reconvolve (db : DB) (o : Ext) (src : Src)
    (args : Args) (xs : List ℚ) (sdt : ℚ) (sl : List ℚ)
    (hrc : args.reconvolve_stf = true)
    (hdt : src.dt = some sdt) (hsl : src.sliprate = some sl)
    (htol : ¬(|(sdt - db.dtq) / db.dtq| > 1 / 10000000))
    (hout : args.dtOut = none) :
    postProcessComp db o src args xs =
      .ok ((o.irfft (FreqSig.div (FreqSig.mul (FreqSig.rfft xs db.nfft)
        (match src.time_shift with
          | some ts => FreqSig.phase (FreqSig.rfft sl db.nfft) ts db.dtq db.nfft
          | none => FreqSig.rfft sl db.nfft))
        (FreqSig.rfft db.sliprate db.nfft))).take db.ndumps) := by
  unfold postProcessComp
  rw [hrc, hdt, hsl, hout]
  simp only [Bool.not_true, Bool.and_false, Bool.false_eq_true, if_false,
    if_true]
  rw [if_neg htol]

theorem postProcessComp_no_stf_error (db : DB) (o : Ext) (src : Src)
    (args : Args) (xs : List ℚ)
    (hrc : args.reconvolve_stf = true)
    (hbad : src.dt = none ∨ src.sliprate = none) :
    postProcessComp db o src args xs =
      .error (.runtimeError "source has no source time function") := by
  unfold postProcessComp
  rw [hrc]
  simp only [Bool.not_true, Bool.and_false, Bool.false_eq_true, if_false,
    if_true]
  rcases hbad with h | h
  · rw [h]
  · rw [h]
    rcases src.dt with _ | sdt <;> rfl

theorem postProcessComp_dt_mismatch_error (db : DB) (o : Ext) (src : Src)
    (args : Args) (xs : List ℚ) (sdt : ℚ) (sl : List ℚ)
    (hrc : args.reconvolve_stf = true)
    (hdt : src.dt = some sdt) (hsl : src.sliprate = some sl)
    (htol : |(sdt - db.dtq) / db.dtq| > 1 / 10000000) :
    postProcessComp db o src args xs =
      .error (.valueError "dt of the source not compatible") := by
  unfold postProcessComp
  rw [hrc, hdt, hsl]
  simp only [Bool.not_true, Bool.and_false, Bool.false_eq_true, if_false,
    if_true]
  rw [if_pos htol]

theorem postProcess_cons_error (db : DB) (o : Ext) (src : Src) (args : Args)
    (data : List (Comp × List ℚ)) (c : Comp) (rest : List Comp) (e : Err)
    (h : postProcessComp db o src args ((data.lookup c).getD []) = .error e) :
    postProcess db o src args (c :: rest) data = .error e := by
  unfold postProcess
  rw [h]

theorem finalize_error (db : DB) (o : Ext) (src : Src) (args : Args)
    (dl : Option DisplLoc) (data : List (Comp × List ℚ)) (e : Err)
    (h : postProcess db o src args args.components data = .error e) :
    finalize db o src args dl data = .error e := by
  unfold finalize
  rw [h]

/-- If the post-processing tail fails unconditionally, every path of
get_seismograms surfaces an error. -/
theorem getSeismograms_isError_of_finalize (db : DB) (o : Ext) (src : Src)
    (rcv : Receiver) (args : Args) (e : Err)
    (hf : ∀ dl data, finalize db o src args dl data = .error e) :
    ∃ e2, (getSeismograms db o src rcv args).1 = .error e2 := by
  rcases hm : db.meshes with ⟨px, pz⟩ | ⟨mm1, mm2, mm3, mm4⟩
  · rw [getSeismograms_bwd db o src rcv args px pz hm]
    unfold getSeisBwd
    by_cases h1 : (needHoriz args.components && px.isNone) = true
    · rw [if_pos h1]
      exact ⟨_, rfl⟩
    · rw [if_neg h1]
      by_cases h2 : (args.components.contains Comp.Z && pz.isNone) = true
      · rw [if_pos h2]
        exact ⟨_, rfl⟩
      · rw [if_neg h2]
        rcases hl : locatePhase db o with ⟨lr, evl⟩
        cases lr with
        | error er => exact ⟨er, rfl⟩
        | ok v =>
          rcases v with ⟨id_elem, dl⟩
          rcases hk : src.kind
          · rcases hc : combineRecipMoment db o px pz id_elem dl
                args.components with ⟨cr, evc⟩
            simp only [hk, hc]
            cases cr with
            | error er => exact ⟨er, rfl⟩
            | ok data => exact ⟨e, hf dl data⟩
          · rcases hc : combineRecipForce db o px pz id_elem dl
                args.components with ⟨cr, evc⟩
            simp only [hk, hc]
            cases cr with
            | error er => exact ⟨er, rfl⟩
            | ok data => exact ⟨e, hf dl data⟩
          · simp only [hk]
            exact ⟨Err.notImplemented, rfl⟩
  · rw [getSeismograms_fwd db o src rcv args mm1 mm2 mm3 mm4 hm]
    unfold getSeisFwd
    rcases hl : locatePhase db o with ⟨lr, evl⟩
    cases lr with
    | error er => exact ⟨er, rfl⟩
    | ok v =>
      rcases v with ⟨id_elem, dl⟩
      rcases hc : combineForward db o mm1 mm2 mm3 mm4 id_elem dl src.kind
          args.components with ⟨cr, evc⟩
      simp only [hc]
      cases cr with
      | error er => exact ⟨er, rfl⟩
      | ok data => exact ⟨e, hf dl data⟩

/-- C6 amended: with reconvolution requested, a valid substitute source time
function, a compatible sample interval and no resampling, the reconvolved
component equals the truncation to ndumps samples of the inverse transform
of a spectral expression whose three rfft leaves (trace, substitute kernel,
deconvolution kernel) all use the single transform length self.nfft, and
that common length is the next power of two at or above twice the dump
count (nextpow2(ndumps) * 2 -- not doubled a further time). -/
theorem c6_transform_length (db : DB) (o : Ext) (src : Src) (args : Args)
    (xs : List ℚ) (sdt : ℚ) (sl : List ℚ)
    (hrc : args.reconvolve_stf = true)
    (hdt : src.dt = some sdt) (hsl : src.sliprate = some sl)
    (htol : ¬(|(sdt - db.dtq) / db.dtq| > 1 / 10000000))
    (hout : args.dtOut = none) (hnd : 1 ≤ db.ndumps) :
    ∃ e : FreqSig,
      postProcessComp db o src args xs = .ok ((o.irfft e).take db.ndumps)
      ∧ rfftLens e = [db.nfft, db.nfft, db.nfft]
      ∧ db.nfft = nextpow2 (2 * db.ndumps) := by
  refine ⟨_, postProcessComp_reconvolve db o src args xs sdt sl hrc hdt hsl
    htol hout, ?_, ?_⟩
  · rcases src.time_shift with _ | ts <;> simp [rfftLens]
  · unfold DB.nfft
    rw [nextpow2_two_mul db.ndumps hnd]
    exact Nat.mul_comm _ _

/-- Witness for C6 (amended): concrete reconvolution on the strain database
with a matching substitute source time function. -/
theorem c6_transform_length_witness :
    ∃ e : FreqSig,
      postProcessComp dbStrain extDefault srcMoment argsZrecon [1, 2] =
        .ok ((extDefault.irfft e).take dbStrain.ndumps)
      ∧ rfftLens e = [DB.nfft dbStrain, DB.nfft dbStrain, DB.nfft dbStrain]
      ∧ DB.nfft dbStrain = nextpow2 (2 * dbStrain.ndumps) :=
  c6_transform_length dbStrain extDefault srcMoment argsZrecon [1, 2] 1 [3]
    rfl rfl rfl (by norm_num [dbStrain]) rfl (by decide)

/-- Counterexample for C6 as stated: on a database with 5 dumps the three
spectra are computed at transform length 16 = nextpow2(5) * 2 (observable by
letting the inverse-transform oracle report the rfft lengths of its
argument), whereas the next power of two above twice the dump count doubled
again is 32. -/
theorem c6_counterexample :
    postProcessComp dbStrain extLens srcMoment argsZrecon [1, 2] =
      .ok [(16 : ℚ), 16, 16]
    ∧ DB.nfft dbStrain = 16
    ∧ specTransformLength dbStrain.ndumps = 32
    ∧ DB.nfft dbStrain ≠ specTransformLength dbStrain.ndumps := by
  refine ⟨?_, by decide, by decide, by decide⟩
  rw [postProcessComp_reconvolve dbStrain extLens srcMoment argsZrecon [1, 2]
    1 [3] rfl rfl rfl (by norm_num [dbStrain]) rfl]
  norm_num [extLens, extDefault, rfftLens]
  decide

/-- C7 amended: for every call that requests reconvolution with at least one
component, if the substitute source has no attached source time function, or
its sample interval mismatches the database interval by a relative error
above 1e-7, the call fails with an error (so no reconvolved output is
produced). -/
theorem c7_reconvolve_validation (db : DB) (o : Ext) (src : Src)
    (rcv : Receiver) (args : Args)
    (hne : args.components ≠ [])
    (hrc : args.reconvolve_stf = true)
    (hbad : (src.dt = none ∨ src.sliprate = none)
      ∨ ∃ sdt sl, src.dt = some sdt ∧ src.sliprate = some sl
        ∧ |(sdt - db.dtq) / db.dtq| > 1 / 10000000) :
    ∃ e, (getSeismograms db o src rcv args).1 = .error e := by
  obtain ⟨c, rest, hcr⟩ : ∃ c rest, args.components = c :: rest := by
    rcases hc : args.components with _ | ⟨c, rest⟩
    · exact absurd hc hne
    · exact ⟨c, rest, rfl⟩
  rcases hbad with hb | ⟨sdt, sl, hdt, hsl, htol⟩
  · refine getSeismograms_isError_of_finalize db o src rcv args
      (.runtimeError "source has no source time function") ?_
    intro dl data
    refine finalize_error db o src args dl data _ ?_
    rw [hcr]
    exact postProcess_cons_error db o src args data c rest _
      (postProcessComp_no_stf_error db o src args _ hrc hb)
  · refine getSeismograms_isError_of_finalize db o src rcv args
      (.valueError "dt of the source not compatible") ?_
    intro dl data
    refine finalize_error db o src args dl data _ ?_
    rw [hcr]
    exact postProcess_cons_error db o src args data c rest _
      (postProcessComp_dt_mismatch_error db o src args _ sdt sl hrc hdt hsl
        htol)

/-- Witness for C7 (amended): requesting Z with reconvolution from a source
with no attached source time function fails with an error. -/
theorem c7_reconvolve_validation_witness :
    ∃ e, (getSeismograms dbStrain extDefault srcNoStf rcv0 argsZrecon).1 =
      .error e :=
  c7_reconvolve_validation dbStrain extDefault srcNoStf rcv0 argsZrecon
    (by decide) rfl (Or.inl (Or.inl rfl))

/-- Counterexample for C7 as stated: a call with reconvolution requested and
a source with no attached source time function succeeds (returning an empty
stream) when the requested component set is empty, because the
missing-source-time-function check only runs inside the per-component loop. -/
theorem c7_counterexample :
    argsEmptyRecon.reconvolve_stf = true ∧ srcNoStf.sliprate = none
    ∧ (getSeismograms dbStrain extDefault srcNoStf rcv0 argsEmptyRecon).1 =
        .ok (.stream [] 1) :=
  ⟨rfl, rfl, rfl⟩

/-- When the sub-source loop terminates with summed data, the progress
callback returned false at every one of its invocations. -/
theorem finiteLoop_some_no_cancel (db : DB) (o : Ext) (rcv : Receiver)
    (comps : List Comp) (cmu : Bool) (f : ℕ → ℕ → Bool) (count : ℕ)
    (out : List (Comp × List ℚ)) :
    ∀ (lst : List Src) (i : ℕ) (acc : List (Comp × List ℚ)) (tr : List Ev),
      (finiteLoop db o rcv comps cmu (some f) count i lst acc tr).1 =
        .ok (some out) →
      ∀ j, j < lst.length → f (i + 1 + j) count = false := by
  intro lst
  induction lst with
  | nil =>
    intro i acc tr _ j hj
    simp at hj
  | cons src rest ih =>
    intro i acc tr hres j hj
    unfold finiteLoop at hres
    rcases hcall : getSeismograms db o src rcv
        { components := comps, remove_source_shift := true,
          reconvolve_stf := true, return_obspy_stream := false,
          dtOut := none, a_lanczos := 5 } with ⟨res1, ev⟩
    rw [hcall] at hres
    cases res1 with
    | error e => simp at hres
    | ok ret =>
      cases ret with
      | stream l dtU => simp at hres
      | raw d mu =>
        dsimp only at hres
        by_cases hc : f (i + 1) count = true
        · rw [if_pos hc] at hres
          simp at hres
        · rw [if_neg hc] at hres
          have hcf : f (i + 1) count = false := by
            cases hfb : f (i + 1) count
            · rfl
            · exact absurd hfb hc
          cases j with
          | zero => exact hcf
          | succ j2 =>
            have hj2 : j2 < rest.length := by
              simp only [List.length_cons] at hj
              omega
            have hrec := ih (i + 1) _ _ hres j2 hj2
            have heq : i + 1 + (j2 + 1) = i + 1 + 1 + j2 := by omega
            rw [heq]
            exact hrec

/-- C8: finite-source synthesis raises NotImplementedError on a forward
database with an empty event trace (no sub-source is processed); when the
progress callback invoked after a sub-source -- at any position in the
loop, with any partial per-component sums accumulated so far -- signals
cancellation, the loop yields none, discarding the accumulated partial
sums; and whenever the entry point does expose summed data, the callback
signalled no cancellation at any of its invocations. -/
theorem c8_finite_source (db : DB) (o : Ext) (sources : List Src)
    (rcv : Receiver) (comps : List Comp) (dtOut : Option ℚ) (a : ℕ)
    (cmu : Bool) (cb : Option (ℕ → ℕ → Bool)) :
    (db.reciprocal = false →
      getSeismogramsFiniteSource db o sources rcv comps dtOut a cmu cb =
        (.error .notImplemented, []))
    ∧ (∀ count i src rest acc tr f d mu ev, cb = some f →
        getSeismograms db o src rcv
          { components := comps, remove_source_shift := true,
            reconvolve_stf := true, return_obspy_stream := false,
            dtOut := none, a_lanczos := 5 } = (.ok (.raw d mu), ev) →
        f (i + 1) count = true →
        (finiteLoop db o rcv comps cmu cb count i (src :: rest) acc tr).1 =
          .ok none)
    ∧ (∀ f out, cb = some f →
        (getSeismogramsFiniteSource db o sources rcv comps dtOut a cmu
          cb).1 = .ok (some out) →
        ∀ i, i < sources.length → f (i + 1) sources.length = false) := by
  refine ⟨?_, ?_, ?_⟩
  · intro h
    unfold getSeismogramsFiniteSource
    rw [if_pos h]
  · intro count i src rest acc tr f d mu ev hcb hcall hf
    unfold finiteLoop
    rw [hcall, hcb]
    simp only [hf, if_true]
  · intro f out hcb hres i hi
    unfold getSeismogramsFiniteSource at hres
    by_cases hrec : db.reciprocal = false
    · rw [if_pos hrec] at hres
      simp at hres
    · rw [if_neg hrec] at hres
      rcases hlp : finiteLoop db o rcv comps cmu cb sources.length 0 sources
          [] [] with ⟨lres, ltr⟩
      rw [hlp] at hres
      cases lres with
      | error e => simp at hres
      | ok oacc =>
        cases oacc with
        | none => simp at hres
        | some acc =>
          have hl1 : (finiteLoop db o rcv comps cmu (some f) sources.length 0
              sources [] []).1 = .ok (some acc) := by
            rw [← hcb, hlp]
          have hall := finiteLoop_some_no_cancel db o rcv comps cmu f
            sources.length acc sources 0 [] [] hl1 i hi
          have heq : 0 + 1 + i = i + 1 := by omega
          rw [heq] at hall
          exact hall

/-- Witness for C8: a forward database fails immediately with an empty
trace; the loop cancelled by the callback after its second sub-source
(nonempty accumulated sums) yields none; an end-to-end two-sub-source call
whose callback cancels after the second sub-source returns none; and a
completed two-sub-source run certifies its callback never cancelled. -/
theorem c8_finite_source_witness :
    getSeismogramsFiniteSource dbFwd extDefault [srcMoment] rcv0 [] none 5
        false (some (fun _ _ => true)) = (.error .notImplemented, [])
    ∧ (finiteLoop dbDispl extDefault rcv0 [] false (some c8cb) 2 1
        [srcMoment] [(Comp.Z, [5])] []).1 = .ok none
    ∧ (getSeismogramsFiniteSource dbDispl extDefault [srcMoment, srcMoment]
        rcv0 [] none 5 false (some c8cb)).1 = .ok none
    ∧ (fun _ _ => (false : Bool)) 2 2 = false := by
  refine ⟨?_, ?_, ?_, ?_⟩
  · exact (c8_finite_source dbFwd extDefault [srcMoment] rcv0 [] none 5 false
      (some (fun _ _ => true))).1 rfl
  · exact (c8_finite_source dbDispl extDefault [srcMoment] rcv0 [] none 5
      false (some c8cb)).2.1 2 1 srcMoment [] [(Comp.Z, [5])] [] c8cb [] 7
      [Ev.kdQuery 6, Ev.insideTest 0] rfl rfl rfl
  · have hstep2 := (c8_finite_source dbDispl extDefault
      [srcMoment, srcMoment] rcv0 [] none 5 false (some c8cb)).2.1 2 1
      srcMoment [] [] [Ev.kdQuery 6, Ev.insideTest 0] c8cb [] 7
      [Ev.kdQuery 6, Ev.insideTest 0] rfl rfl rfl
    unfold getSeismogramsFiniteSource
    rw [if_neg (by decide)]
    have hred : finiteLoop dbDispl extDefault rcv0 [] false (some c8cb)
        [srcMoment, srcMoment].length 0 [srcMoment, srcMoment] [] [] =
        finiteLoop dbDispl extDefault rcv0 [] false (some c8cb) 2 1
        [srcMoment] [] [Ev.kdQuery 6, Ev.insideTest 0] := rfl
    rw [hred]
    rcases hlp : finiteLoop dbDispl extDefault rcv0 [] false (some c8cb) 2 1
        [srcMoment] [] [Ev.kdQuery 6, Ev.insideTest 0] with ⟨lres, ltr⟩
    rw [hlp] at hstep2
    simp only at hstep2
    rw [hstep2]
  · exact (c8_finite_source dbDispl extDefault [srcMoment, srcMoment] rcv0
      [] none 5 false (some (fun _ _ => false))).2.2 (fun _ _ => false) []
      rfl rfl 1 (by decide)

theorem mem_evPair (ev : Ev) (mid : MeshId) (r : ℕ) (h : ev ∈ evPair mid r) :
    ev = Ev.extract mid ∨ ev = Ev.rawRead mid := by
  unfold evPair at h
  rcases List.mem_cons.mp h with h2 | h2
  · exact Or.inl h2
  · right
    by_cases hr : r > 0
    · rw [if_pos hr] at h2
      simpa using h2
    · rw [if_neg hr] at h2
      simp at h2

theorem extract_mem_evPair (mid : MeshId) (r : ℕ) :
    Ev.extract mid ∈ evPair mid r :=
  List.mem_cons_self _ _

theorem extractStrain_events (db : DB) (o : Ext) (mo : Option MeshData)
    (mid : MeshId) (id_elem : ℕ) (dl : Option DisplLoc) (ev : Ev)
    (hev : ev ∈ (extractStrain db o mo mid id_elem dl).2) :
    ev = Ev.extract mid ∨ ev = Ev.rawRead mid := by
  rcases mo with _ | m
  · simp [extractStrain] at hev
  · unfold extractStrain at hev
    dsimp only at hev
    by_cases hd : db.dump_type = DumpType.displ_only
    · rw [if_pos hd] at hev
      rcases dl with _ | d
      · simp at hev
      · exact mem_evPair ev mid _ hev
    · rw [if_neg hd] at hev
      exact mem_evPair ev mid _ hev

theorem extractDispl_events (o : Ext) (mo : Option MeshData) (mid : MeshId)
    (id_elem : ℕ) (dl : Option DisplLoc) (ev : Ev)
    (hev : ev ∈ (extractDispl o mo mid id_elem dl).2) :
    ev = Ev.extract mid ∨ ev = Ev.rawRead mid := by
  rcases mo with _ | m
  · simp [extractDispl] at hev
  · unfold extractDispl at hev
    dsimp only at hev
    rcases dl with _ | d
    · simp at hev
    · exact mem_evPair ev mid _ hev

theorem combineRecipMoment_events (db : DB) (o : Ext)
    (px pz : Option MeshData) (id_elem : ℕ) (dl : Option DisplLoc)
    (comps : List Comp) (ev : Ev)
    (hev : ev ∈ (combineRecipMoment db o px pz id_elem dl comps).2) :
    (comps.contains Comp.Z = true
      ∧ (ev = Ev.extract MeshId.pz ∨ ev = Ev.rawRead MeshId.pz))
    ∨ (needHoriz comps = true
      ∧ (ev = Ev.extract MeshId.px ∨ ev = Ev.rawRead MeshId.px)) := by
  rcases hrz : extractStrain db o pz MeshId.pz id_elem dl with ⟨rz1, evz⟩
  rcases hrx : extractStrain db o px MeshId.px id_elem dl with ⟨rx1, evx⟩
  have hmz : ∀ e ∈ evz, e = Ev.extract MeshId.pz ∨ e = Ev.rawRead MeshId.pz :=
    fun e he => extractStrain_events db o pz MeshId.pz id_elem dl e
      (by rw [hrz]; exact he)
  have hmx : ∀ e ∈ evx, e = Ev.extract MeshId.px ∨ e = Ev.rawRead MeshId.px :=
    fun e he => extractStrain_events db o px MeshId.px id_elem dl e
      (by rw [hrx]; exact he)
  unfold combineRecipMoment at hev
  by_cases hz : comps.contains Comp.Z = true <;>
    by_cases hx : needHoriz comps = true <;>
      simp only [hz, hx, hrz, hrx, if_true, Bool.false_eq_true, if_false] at hev
  · cases rz1 with
    | error e =>
      simp only [Except.map] at hev
      exact Or.inl ⟨hz, hmz ev hev⟩
    | ok sz =>
      cases rx1 with
      | error e =>
        simp only [Except.map] at hev
        rcases List.mem_append.mp hev with h | h
        · exact Or.inl ⟨hz, hmz ev h⟩
        · exact Or.inr ⟨hx, hmx ev h⟩
      | ok sx =>
        simp only [Except.map] at hev
        rcases List.mem_append.mp hev with h | h
        · exact Or.inl ⟨hz, hmz ev h⟩
        · exact Or.inr ⟨hx, hmx ev h⟩
  · cases rz1 with
    | error e =>
      simp only [Except.map] at hev
      exact Or.inl ⟨hz, hmz ev hev⟩
    | ok sz =>
      simp only [Except.map] at hev
      rcases List.mem_append.mp hev with h | h
      · exact Or.inl ⟨hz, hmz ev h⟩
      · simp at h
  · cases rx1 with
    | error e =>
      simp only [Except.map] at hev
      rcases List.mem_append.mp hev with h | h
      · simp at h
      · exact Or.inr ⟨hx, hmx ev h⟩
    | ok sx =>
      simp only [Except.map] at hev
      rcases List.mem_append.mp hev with h | h
      · simp at h
      · exact Or.inr ⟨hx, hmx ev h⟩
  · simp at hev

theorem combineRecipForce_events (db : DB) (o : Ext)
    (px pz : Option MeshData) (id_elem : ℕ) (dl : Option DisplLoc)
    (comps : List Comp) (ev : Ev)
    (hev : ev ∈ (combineRecipForce db o px pz id_elem dl comps).2) :
    (comps.contains Comp.Z = true
      ∧ (ev = Ev.extract MeshId.pz ∨ ev = Ev.rawRead MeshId.pz))
    ∨ (needHoriz comps = true
      ∧ (ev = Ev.extract MeshId.px ∨ ev = Ev.rawRead MeshId.px)) := by
  rcases hrz : extractDispl o pz MeshId.pz id_elem dl with ⟨rz1, evz⟩
  rcases hrx : extractDispl o px MeshId.px id_elem dl with ⟨rx1, evx⟩
  have hmz : ∀ e ∈ evz, e = Ev.extract MeshId.pz ∨ e = Ev.rawRead MeshId.pz :=
    fun e he => extractDispl_events o pz MeshId.pz id_elem dl e
      (by rw [hrz]; exact he)
  have hmx : ∀ e ∈ evx, e = Ev.extract MeshId.px ∨ e = Ev.rawRead MeshId.px :=
    fun e he => extractDispl_events o px MeshId.px id_elem dl e
      (by rw [hrx]; exact he)
  unfold combineRecipForce at hev
  by_cases hdt : db.dump_type ≠ DumpType.displ_only
  · rw [if_pos hdt] at hev
    simp at hev
  · rw [if_neg hdt] at hev
    by_cases hz : comps.contains Comp.Z = true <;>
      by_cases hx : needHoriz comps = true <;>
        simp only [hz, hx, hrz, hrx, if_true, Bool.false_eq_true, if_false]
          at hev
    · cases rz1 with
      | error e =>
        simp only [Except.map] at hev
        exact Or.inl ⟨hz, hmz ev hev⟩
      | ok sz =>
        cases rx1 with
        | error e =>
          simp only [Except.map] at hev
          rcases List.mem_append.mp hev with h | h
          · exact Or.inl ⟨hz, hmz ev h⟩
          · exact Or.inr ⟨hx, hmx ev h⟩
        | ok sx =>
          simp only [Except.map] at hev
          rcases List.mem_append.mp hev with h | h
          · exact Or.inl ⟨hz, hmz ev h⟩
          · exact Or.inr ⟨hx, hmx ev h⟩
    · cases rz1 with
      | error e =>
        simp only [Except.map] at hev
        exact Or.inl ⟨hz, hmz ev hev⟩
      | ok sz =>
        simp only [Except.map] at hev
        rcases List.mem_append.mp hev with h | h
        · exact Or.inl ⟨hz, hmz ev h⟩
        · simp at h
    · cases rx1 with
      | error e =>
        simp only [Except.map] at hev
        rcases List.mem_append.mp hev with h | h
        · simp at h
        · exact Or.inr ⟨hx, hmx ev h⟩
      | ok sx =>
        simp only [Except.map] at hev
        rcases List.mem_append.mp hev with h | h
        · simp at h
        · exact Or.inr ⟨hx, hmx ev h⟩
    · simp at hev

theorem locatePhase_no_extract (db : DB) (o : Ext) (mid : MeshId) :
    Ev.extract mid ∉ (locatePhase db o).2 := by
  unfold locatePhase
  by_cases hd : db.dump_type = DumpType.displ_only
  · rw [if_pos hd]
    have hne := findElement_no_extract o (o.kdQuery (kMap db.dump_type)) mid
    rcases hfe : findElement o (o.kdQuery (kMap db.dump_type)) with ⟨res, evs⟩
    rw [hfe] at hne
    cases res with
    | error e =>
      simp only [List.mem_cons]
      rintro (h | h)
      · exact Ev.noConfusion h
      · exact hne h
    | ok v =>
      rcases v with ⟨id_elem, xi, eta⟩
      simp only [List.mem_cons]
      rintro (h | h)
      · exact Ev.noConfusion h
      · exact hne h
  · rw [if_neg hd]
    simp

theorem warn_no_extract (b : Bool) (mid : MeshId) :
    Ev.extract mid ∉ (if b then [Ev.warnDepth] else []) := by
  cases b <;> simp

theorem combineForward_ok_extracts (db : DB) (o : Ext)
    (mm1 mm2 mm3 mm4 : MeshData) (id_elem : ℕ) (dl : Option DisplLoc)
    (k : SrcKind) (comps : List Comp) (data : List (Comp × List ℚ))
    (evs : List Ev)
    (h : combineForward db o mm1 mm2 mm3 mm4 id_elem dl k comps =
      (.ok data, evs)) :
    Ev.extract MeshId.m1 ∈ evs ∧ Ev.extract MeshId.m2 ∈ evs
    ∧ Ev.extract MeshId.m3 ∈ evs ∧ Ev.extract MeshId.m4 ∈ evs := by
  unfold combineForward at h
  by_cases hk : k ≠ SrcKind.moment
  · rw [if_pos hk] at h
    simp at h
  · rw [if_neg hk] at h
    by_cases hd : db.dump_type ≠ DumpType.displ_only
    · rw [if_pos hd] at h
      simp at h
    · rw [if_neg hd] at h
      rcases dl with _ | d
      · simp at h
      · have hevs := congrArg Prod.snd h
        simp only at hevs
        rw [← hevs]
        refine ⟨?_, ?_, ?_, ?_⟩ <;>
          simp [List.mem_append, extract_mem_evPair]

theorem combineForward_ok_displ (db : DB) (o : Ext)
    (mm1 mm2 mm3 mm4 : MeshData) (id_elem : ℕ) (dl : Option DisplLoc)
    (k : SrcKind) (comps : List Comp) (data : List (Comp × List ℚ))
    (evs : List Ev)
    (h : combineForward db o mm1 mm2 mm3 mm4 id_elem dl k comps =
      (.ok data, evs)) :
    db.dump_type = DumpType.displ_only := by
  by_contra hd
  unfold combineForward at h
  by_cases hk : k ≠ SrcKind.moment
  · rw [if_pos hk] at h
    simp at h
  · rw [if_neg hk, if_pos hd] at h
    simp at h

/-- C9 amended: in reciprocal mode the vertical-force mesh's field is
extracted only when Z is requested and the horizontal-force mesh's field
only when one of N, E, R, T is requested; in forward mode every completed
synthesis extracts all four elemental meshes, regardless of the requested
component set. -/
theorem c9_lazy_mesh_reads (db : DB) (o : Ext) (src : Src) (rcv : Receiver)
    (args : Args) :
    (∀ px pz, db.meshes = .bwd px pz →
      ((Ev.extract MeshId.pz ∈ (getSeismograms db o src rcv args).2 →
          args.components.contains Comp.Z = true)
        ∧ (Ev.extract MeshId.px ∈ (getSeismograms db o src rcv args).2 →
          needHoriz args.components = true)))
    ∧ (∀ mm1 mm2 mm3 mm4 r, db.meshes = .fwd mm1 mm2 mm3 mm4 →
        (getSeismograms db o src rcv args).1 = .ok r →
        (Ev.extract MeshId.m1 ∈ (getSeismograms db o src rcv args).2
          ∧ Ev.extract MeshId.m2 ∈ (getSeismograms db o src rcv args).2
          ∧ Ev.extract MeshId.m3 ∈ (getSeismograms db o src rcv args).2
          ∧ Ev.extract MeshId.m4 ∈ (getSeismograms db o src rcv args).2)) := by
  constructor
  · intro px pz hm
    rw [getSeismograms_bwd db o src rcv args px pz hm]
    unfold getSeisBwd
    by_cases h1 : (needHoriz args.components && px.isNone) = true
    · rw [if_pos h1]
      constructor <;> intro hmem <;> simp at hmem
    · rw [if_neg h1]
      by_cases h2 : (args.components.contains Comp.Z && pz.isNone) = true
      · rw [if_pos h2]
        constructor <;> intro hmem <;> simp at hmem
      · rw [if_neg h2]
        rcases hl : locatePhase db o with ⟨lr, evl⟩
        have hlne : ∀ mid, Ev.extract mid ∉ evl := by
          intro mid
          have := locatePhase_no_extract db o mid
          rw [hl] at this
          exact this
        cases lr with
        | error e =>
          constructor <;> intro hmem <;>
          · rcases List.mem_append.mp hmem with h | h
            · exact absurd h (warn_no_extract _ _)
            · exact absurd h (hlne _)
        | ok v =>
          rcases v with ⟨id_elem, dl⟩
          have main : ∀ (cres : (Except Err (List (Comp × List ℚ))) × List Ev),
              (∀ e ∈ cres.2,
                (args.components.contains Comp.Z = true
                  ∧ (e = Ev.extract MeshId.pz ∨ e = Ev.rawRead MeshId.pz))
                ∨ (needHoriz args.components = true
                  ∧ (e = Ev.extract MeshId.px ∨ e = Ev.rawRead MeshId.px))) →
              ((Ev.extract MeshId.pz ∈ (match cres with
                  | (.error e, evc) => ((.error e : Except Err Ret),
                      (if rcv.depth_in_m.isSome then [Ev.warnDepth] else [])
                        ++ evl ++ evc)
                  | (.ok data, evc) => (finalize db o src args dl data,
                      (if rcv.depth_in_m.isSome then [Ev.warnDepth] else [])
                        ++ evl ++ evc)).2 →
                args.components.contains Comp.Z = true)
              ∧ (Ev.extract MeshId.px ∈ (match cres with
                  | (.error e, evc) => ((.error e : Except Err Ret),
                      (if rcv.depth_in_m.isSome then [Ev.warnDepth] else [])
                        ++ evl ++ evc)
                  | (.ok data, evc) => (finalize db o src args dl data,
                      (if rcv.depth_in_m.isSome then [Ev.warnDepth] else [])
                        ++ evl ++ evc)).2 →
                needHoriz args.components = true)) := by
            intro cres hall
            rcases cres with ⟨cr, evc⟩
            cases cr with
            | error e =>
              constructor <;> intro hmem <;>
              · rcases List.mem_append.mp hmem with h | h
                · rcases List.mem_append.mp h with h3 | h3
                  · exact absurd h3 (warn_no_extract _ _)
                  · exact absurd h3 (hlne _)
                · rcases hall _ h with ⟨hc, hor⟩ | ⟨hc, hor⟩
                  · rcases hor with h4 | h4
                    · first
                        | exact hc
                        | exact absurd h4 (by intro h5; cases h5)
                    · exact absurd h4 (by intro h5; cases h5)
                  · rcases hor with h4 | h4
                    · first
                        | exact hc
                        | exact absurd h4 (by intro h5; cases h5)
                    · exact absurd h4 (by intro h5; cases h5)
            | ok data =>
              constructor <;> intro hmem <;>
              · rcases List.mem_append.mp hmem with h | h
                · rcases List.mem_append.mp h with h3 | h3
                  · exact absurd h3 (warn_no_extract _ _)
                  · exact absurd h3 (hlne _)
                · rcases hall _ h with ⟨hc, hor⟩ | ⟨hc, hor⟩
                  · rcases hor with h4 | h4
                    · first
                        | exact hc
                        | exact absurd h4 (by intro h5; cases h5)
                    · exact absurd h4 (by intro h5; cases h5)
                  · rcases hor with h4 | h4
                    · first
                        | exact hc
                        | exact absurd h4 (by intro h5; cases h5)
                    · exact absurd h4 (by intro h5; cases h5)
          rcases hk : src.kind
          · simp only [hk]
            exact main (combineRecipMoment db o px pz id_elem dl
                args.components)
              (fun e he => combineRecipMoment_events db o px pz id_elem dl
                args.components e he)
          · simp only [hk]
            exact main (combineRecipForce db o px pz id_elem dl
                args.components)
              (fun e he => combineRecipForce_events db o px pz id_elem dl
                args.components e he)
          · simp only [hk]
            exact main ((.error .notImplemented), []) (fun e he => by
              simp at he)
  · intro mm1 mm2 mm3 mm4 r hm hok
    rw [getSeismograms_fwd db o src rcv args mm1 mm2 mm3 mm4 hm] at hok ⊢
    unfold getSeisFwd at hok ⊢
    rcases hl : locatePhase db o with ⟨lr, evl⟩
    cases lr with
    | error e => simp only [hl] at hok; simp at hok
    | ok v =>
      rcases v with ⟨id_elem, dl⟩
      simp only [hl] at hok ⊢
      rcases hc : combineForward db o mm1 mm2 mm3 mm4 id_elem dl src.kind
          args.components with ⟨cr, evc⟩
      simp only [hc] at hok ⊢
      cases cr with
      | error e => simp at hok
      | ok data =>
        have hex := combineForward_ok_extracts db o mm1 mm2 mm3 mm4 id_elem
          dl src.kind args.components data evc hc
        refine ⟨?_, ?_, ?_, ?_⟩ <;>
          simp only [List.mem_append] <;>
          [exact Or.inr hex.1; exact Or.inr hex.2.1; exact Or.inr hex.2.2.1;
            exact Or.inr hex.2.2.2]

/-- Witness for C9 (amended): a reciprocal displ_only call requesting Z has
the vertical-force extraction in its trace, so the theorem yields that Z was
requested; a forward call requesting no components at all still completes
with all four elemental meshes extracted. -/
theorem c9_lazy_mesh_reads_witness :
    ([Comp.Z] : List Comp).contains Comp.Z = true
    ∧ (Ev.extract MeshId.m1 ∈
        (getSeismograms dbFwd extDefault srcMoment rcv0 argsEmptyStream).2
      ∧ Ev.extract MeshId.m2 ∈
        (getSeismograms dbFwd extDefault srcMoment rcv0 argsEmptyStream).2
      ∧ Ev.extract MeshId.m3 ∈
        (getSeismograms dbFwd extDefault srcMoment rcv0 argsEmptyStream).2
      ∧ Ev.extract MeshId.m4 ∈
        (getSeismograms dbFwd extDefault srcMoment rcv0 argsEmptyStream).2) := by
  constructor
  · exact ((c9_lazy_mesh_reads dbDispl extDefault srcMoment rcv0 argsZ).1
      (some meshDefault) (some meshDefault) rfl).1 (by decide)
  · exact (c9_lazy_mesh_reads dbFwd extDefault srcMoment rcv0
      argsEmptyStream).2 meshDefault meshDefault meshDefault meshDefault
      (.stream [] 1) rfl rfl

/-- Counterexample for C9 as stated: in forward mode with only the
transverse component requested, the whole call result is independent of the
MZZ mesh's stored field (its field contributes to no requested component),
yet the MZZ mesh is extracted. -/
theorem c9_counterexample :
    c9M1FieldIrrelevantForT
    ∧ Ev.extract MeshId.m1 ∈ (c9TOut 0 0).2 := by
  constructor
  · intro a b
    rfl
  · decide

theorem locatePhase_nondispl (db : DB) (o : Ext)
    (hd : db.dump_type ≠ DumpType.displ_only) :
    locatePhase db o = (.ok ((o.kdQuery (kMap db.dump_type)).headD 0, none),
      [Ev.kdQuery (kMap db.dump_type)]) := by
  unfold locatePhase
  rw [if_neg hd]

theorem locatePhase_some_displ (db : DB) (o : Ext) (id_elem : ℕ)
    (d : DisplLoc) (h : (locatePhase db o).1 = .ok (id_elem, some d)) :
    db.dump_type = DumpType.displ_only := by
  by_contra hd
  rw [locatePhase_nondispl db o hd] at h
  simp at h

theorem postProcessComp_no_reconvolve_ok (db : DB) (o : Ext) (src : Src)
    (args : Args) (xs : List ℚ) (hrc : args.reconvolve_stf = false) :
    ∃ ys, postProcessComp db o src args xs = .ok ys := by
  unfold postProcessComp
  simp only [hrc, Bool.not_false, Bool.and_true, Bool.false_eq_true, if_false]
  by_cases hr : args.remove_source_shift = true
  · rw [if_pos hr]
    rcases args.dtOut with _ | dtn
    · exact ⟨_, rfl⟩
    · exact ⟨_, rfl⟩
  · rw [if_neg hr]
    rcases args.dtOut with _ | dtn
    · exact ⟨_, rfl⟩
    · exact ⟨_, rfl⟩

theorem postProcess_no_reconvolve_ok (db : DB) (o : Ext) (src : Src)
    (args : Args) (hrc : args.reconvolve_stf = false) :
    ∀ comps data, ∃ out, postProcess db o src args comps data = .ok out := by
  intro comps
  induction comps with
  | nil => exact fun data => ⟨data, rfl⟩
  | cons c rest ih =>
    intro data
    obtain ⟨ys, hys⟩ := postProcessComp_no_reconvolve_ok db o src args
      ((data.lookup c).getD []) hrc
    obtain ⟨out, hout⟩ := ih (setAssoc data c ys)
    refine ⟨out, ?_⟩
    unfold postProcess
    rw [hys]
    exact hout

theorem finalize_unbound (db : DB) (o : Ext) (src : Src) (args : Args)
    (data : List (Comp × List ℚ)) (hro : args.return_obspy_stream = false)
    (hrc : args.reconvolve_stf = false) :
    finalize db o src args none data =
      .error (.unboundLocal "gll_point_ids") := by
  obtain ⟨out, hout⟩ := postProcess_no_reconvolve_ok db o src args hrc
    args.components data
  unfold finalize
  rw [hout, hro]
  rfl

theorem finalize_raw_some (db : DB) (o : Ext) (src : Src) (args : Args)
    (dl : Option DisplLoc) (data l : List (Comp × List ℚ)) (mu : ℚ)
    (h : finalize db o src args dl data = .ok (.raw l mu)) :
    ∃ d, dl = some d := by
  unfold finalize at h
  rcases hpp : postProcess db o src args args.components data with e | out
  · rw [hpp] at h
    simp at h
  · rw [hpp] at h
    dsimp only at h
    by_cases hro : args.return_obspy_stream = true
    · rw [if_pos hro] at h
      simp at h
    · rw [if_neg hro] at h
      rcases dl with _ | d
      · simp at h
      · exact ⟨d, rfl⟩

theorem extractStrain_some_nondispl (db : DB) (o : Ext) (m : MeshData)
    (mid : MeshId) (id_elem : ℕ) (dl : Option DisplLoc)
    (hd : db.dump_type ≠ DumpType.displ_only) :
    extractStrain db o (some m) mid id_elem dl =
      (.ok (getStrain db.ndumps m id_elem).1,
        evPair mid (getStrain db.ndumps m id_elem).2.2) := by
  unfold extractStrain
  dsimp only
  rw [if_neg hd]

theorem combineRecipMoment_nondispl_ok (db : DB) (o : Ext)
    (mx mz : MeshData) (id_elem : ℕ) (dl : Option DisplLoc)
    (comps : List Comp) (hd : db.dump_type ≠ DumpType.displ_only) :
    ∃ data evs, combineRecipMoment db o (some mx) (some mz) id_elem dl comps
      = (.ok data, evs) := by
  unfold combineRecipMoment
  by_cases hz : comps.contains Comp.Z = true <;>
    by_cases hx : needHoriz comps = true <;>
      simp only [hz, hx, if_true, Bool.false_eq_true, if_false,
        extractStrain_some_nondispl db o mz MeshId.pz id_elem dl hd,
        extractStrain_some_nondispl db o mx MeshId.px id_elem dl hd,
        Except.map] <;>
      exact ⟨_, _, rfl⟩

/-- C10: with a non-DisplacementOnly dump type, a reciprocal moment-tensor
call that requests the raw-arrays return fails with the unbound-local error
for gll_point_ids when it reaches the shear-modulus lookup (the GLL point
ids are bound only on the DisplacementOnly point-location path), and every
call whatsoever that does return raw arrays plus shear modulus was made on
a DisplacementOnly database. -/
theorem c10_raw_return (db : DB) (o : Ext) (src : Src) (rcv : Receiver)
    (args : Args) (mx mz : MeshData)
    (hm : db.meshes = .bwd (some mx) (some mz))
    (hk : src.kind = SrcKind.moment)
    (hd : db.dump_type ≠ DumpType.displ_only)
    (hro : args.return_obspy_stream = false)
    (hrc : args.reconvolve_stf = false) :
    (getSeismograms db o src rcv args).1 =
      .error (.unboundLocal "gll_point_ids")
    ∧ ∀ (db2 : DB) (o2 : Ext) (src2 : Src) (rcv2 : Receiver) (args2 : Args)
        (l : List (Comp × List ℚ)) (mu : ℚ),
        (getSeismograms db2 o2 src2 rcv2 args2).1 = .ok (.raw l mu) →
        db2.dump_type = DumpType.displ_only := by
  constructor
  · rw [getSeismograms_bwd db o src rcv args (some mx) (some mz) hm]
    unfold getSeisBwd
    rw [if_neg (by simp), if_neg (by simp)]
    rw [locatePhase_nondispl db o hd]
    obtain ⟨data, evc, hc⟩ := combineRecipMoment_nondispl_ok db o mx mz
      ((o.kdQuery (kMap db.dump_type)).headD 0) none args.components hd
    simp only [hk, hc]
    exact finalize_unbound db o src args data hro hrc
  · intro db2 o2 src2 rcv2 args2 l mu hok
    rcases hm2 : db2.meshes with ⟨px, pz⟩ | ⟨a1, a2, a3, a4⟩
    · rw [getSeismograms_bwd db2 o2 src2 rcv2 args2 px pz hm2] at hok
      unfold getSeisBwd at hok
      by_cases h1 : (needHoriz args2.components && px.isNone) = true
      · rw [if_pos h1] at hok
        simp at hok
      · rw [if_neg h1] at hok
        by_cases h2 : (args2.components.contains Comp.Z && pz.isNone) = true
        · rw [if_pos h2] at hok
          simp at hok
        · rw [if_neg h2] at hok
          rcases hl : locatePhase db2 o2 with ⟨lr, evl⟩
          simp only [hl] at hok
          cases lr with
          | error e => simp at hok
          | ok v =>
            rcases v with ⟨id_elem, dl⟩
            rcases hk2 : src2.kind
            · rcases hc : combineRecipMoment db2 o2 px pz id_elem dl
                  args2.components with ⟨cr, evc⟩
              simp only [hk2, hc] at hok
              cases cr with
              | error e => simp at hok
              | ok data =>
                obtain ⟨d, hdl⟩ := finalize_raw_some db2 o2 src2 args2 dl
                  data l mu hok
                subst hdl
                exact locatePhase_some_displ db2 o2 id_elem d
                  (by rw [hl])
            · rcases hc : combineRecipForce db2 o2 px pz id_elem dl
                  args2.components with ⟨cr, evc⟩
              simp only [hk2, hc] at hok
              cases cr with
              | error e => simp at hok
              | ok data =>
                obtain ⟨d, hdl⟩ := finalize_raw_some db2 o2 src2 args2 dl
                  data l mu hok
                subst hdl
                exact locatePhase_some_displ db2 o2 id_elem d
                  (by rw [hl])
            · simp only [hk2] at hok
              simp at hok
    · rw [getSeismograms_fwd db2 o2 src2 rcv2 args2 a1 a2 a3 a4 hm2] at hok
      unfold getSeisFwd at hok
      rcases hl : locatePhase db2 o2 with ⟨lr, evl⟩
      simp only [hl] at hok
      cases lr with
      | error e => simp at hok
      | ok v =>
        rcases v with ⟨id_elem, dl⟩
        rcases hc : combineForward db2 o2 a1 a2 a3 a4 id_elem dl src2.kind
            args2.components with ⟨cr, evc⟩
        simp only [hc] at hok
        cases cr with
        | error e => simp at hok
        | ok data =>
          exact combineForward_ok_displ db2 o2 a1 a2 a3 a4 id_elem dl
            src2.kind args2.components data evc hc

/-- Witness for C10: requesting Z as raw arrays on the strain_only
reciprocal database fails with the gll_point_ids unbound-local error. -/
theorem c10_raw_return_witness :
    (getSeismograms dbStrain extDefault srcMoment rcv0 argsRawStrain).1 =
      .error (.unboundLocal "gll_point_ids") :=
  (c10_raw_return dbStrain extDefault srcMoment rcv0 argsRawStrain
    meshDefault meshDefault rfl rfl (by decide) rfl rfl).1

end Instaseis
